import Mathlib

/-!
Verification of the `prov-api-harvester` repository against its
natural-language specification.

Part 1 embeds `prov-api-harvest.py`: the retrying transport
(`fetch_data`), the pagination loop (`process_paginated_query`), the
plain and series-batch streaming drivers, the file lifecycle of
`FileManager`/`main`, and the batch planner
(`create_optimal_batches_from_counts`).

Part 2 embeds `prov-harvest-stats.py`: the record folding
(`process_object`), the streaming driver (`process_json_stream`) and
the report assembly (`print_stats_json`).

Mutable state is passed explicitly; Python `Counter`s are modelled as
the list of their increment events (a bucket's value is the number of
occurrences of its key); Python `dict`s are association lists in
insertion order; Python exceptions are `Except`/`Option` results.
-/

namespace ProvHarvest

/-! ### Transport (`fetch_data`, src/prov-api-harvest.py lines 75-131)

`MAX_CONSECUTIVE_FAILURES = 6`, `BASE_WAIT_TIME = 63`; each attempt is
bounded by `requests.get(url, timeout=60)`.  The attempt oracle
`attempt : Nat → Bool` tells whether the n-th try of this one URL
succeeds; the loop keeps a consecutive-failure counter starting at 0,
sleeps `BASE_WAIT_TIME * consecutive_failures` after each failure and
gives up when the counter reaches the maximum. -/

def MAX_CONSECUTIVE_FAILURES : Nat := 6

def BASE_WAIT_TIME : Nat := 63

/-- The fixed per-attempt timeout passed to `requests.get` (line 105). -/
def REQUEST_TIMEOUT_SECONDS : Nat := 60

/-- The retry loop of `fetch_data`, recursing on the remaining failure
budget `rem = MAX_CONSECUTIVE_FAILURES - failures`.  Returns the index
of the successful attempt (`none` when the budget is exhausted and
`TooManyFailedRequestsError` is raised) together with the list of
back-off waits performed, in order. -/
def fetchLoop (attempt : Nat → Bool) : Nat → Nat → Option Nat × List Nat
  | 0, _ => (none, [])
  | rem + 1, failures =>
    if attempt failures then (some failures, [])
    else
      let r := fetchLoop attempt rem (failures + 1)
      (r.1, BASE_WAIT_TIME * (failures + 1) :: r.2)

/-- `fetch_data` (lines 86-131): the failure counter starts at zero on
every call. -/
def fetch_data (attempt : Nat → Bool) : Option Nat × List Nat :=
  fetchLoop attempt MAX_CONSECUTIVE_FAILURES 0

/-- One HTTP GET as a transport issues it: the URL, and the value of
the `timeout=` keyword the call passes (`none` when the call passes no
timeout keyword at all). -/
structure HttpGet where
  url : String
  timeout : Option Nat
deriving DecidableEq

/-- The retry loop of `fetch_data` again, now also recording the GET
calls it issues: each iteration runs `requests.get(url, timeout=60)`
(line 105), so every recorded call carries
`timeout = some REQUEST_TIMEOUT_SECONDS`.  The first two components
are exactly `fetchLoop`'s (proved below). -/
def fetchLoopR (attempt : Nat → Bool) (url : String) :
    Nat → Nat → Option Nat × List Nat × List HttpGet
  | 0, _ => (none, [], [])
  | rem + 1, failures =>
    if attempt failures then
      (some failures, [], [⟨url, some REQUEST_TIMEOUT_SECONDS⟩])
    else
      let r := fetchLoopR attempt url rem (failures + 1)
      (r.1, BASE_WAIT_TIME * (failures + 1) :: r.2.1,
        (⟨url, some REQUEST_TIMEOUT_SECONDS⟩ : HttpGet) :: r.2.2)

/-- `fetch_data` with its GET calls recorded. -/
def fetch_dataR (attempt : Nat → Bool) (url : String) :
    Option Nat × List Nat × List HttpGet :=
  fetchLoopR attempt url MAX_CONSECUTIVE_FAILURES 0

/-- Spec-side predicate: every recorded GET call carries the fixed
60-second timeout keyword. -/
def allTimedOut (gs : List HttpGet) : Bool :=
  gs.all (fun g => g.timeout == some REQUEST_TIMEOUT_SECONDS)

/-- Spec-side predicate: no recorded GET call carries any timeout
keyword. -/
def noTimeout (gs : List HttpGet) : Bool :=
  gs.all (fun g => g.timeout == none)

namespace Track

/-- src/prov-api-track.py line 36. -/
def MAX_RETRIES : Nat := 6

/-- src/prov-api-track.py line 37. -/
def BASE_WAIT_TIME : Nat := 63

/-- The tracker transport's `for attempt in range(MAX_RETRIES)` loop
(src/prov-api-track.py lines 77-88), recursing on the remaining
iterations with `i` the current value of `attempt`: each iteration
issues `requests.get(url)` — no `timeout=` keyword — and on failure
sleeps `BASE_WAIT_TIME * (attempt + 1)` (also after the final failed
iteration) before the loop continues.  Returns the succeeding
iteration's index (`none` when the loop finishes and the terminal
`RequestException` at line 90 is raised), the sleeps performed in
order, and the GET calls issued. -/
def fetchFor (attempt : Nat → Bool) (url : String) :
    Nat → Nat → Option Nat × List Nat × List HttpGet
  | 0, _ => (none, [], [])
  | rem + 1, i =>
    if attempt i then (some i, [], [⟨url, none⟩])
    else
      let r := fetchFor attempt url rem (i + 1)
      (r.1, BASE_WAIT_TIME * (i + 1) :: r.2.1,
        (⟨url, none⟩ : HttpGet) :: r.2.2)

/-- `fetch_data` (src/prov-api-track.py lines 64-91): the loop counter
starts at zero on every call. -/
def fetch_data (attempt : Nat → Bool) (url : String) :
    Option Nat × List Nat × List HttpGet :=
  fetchFor attempt url MAX_RETRIES 0

end Track

/-! ### Pages and the pagination loop (`process_paginated_query`) -/

/-- One server response for a page request at a given offset:
`response.docs` (each doc already serialised by `json.dumps`),
`response.numFound`, and the number of failed attempts the transport
sees before this page's request succeeds. -/
structure Page where
  docs : List String
  numFound : Nat
  failures : Nat

/-- The write loop of `process_paginated_query` (lines 287-295): for
each doc, emit `,\n` first unless this is the very first record of the
file, then the doc itself.  Returns the bytes written and the updated
`first_record` flag. -/
def writeDocs : List String → Bool → String × Bool
  | [], first => ("", first)
  | d :: ds, true => ((d ++ (writeDocs ds false).1), (writeDocs ds false).2)
  | d :: ds, false => ((",\n" ++ d ++ (writeDocs ds false).1), (writeDocs ds false).2)

/-- Outcome of a pagination run. -/
inductive RunResult (α : Type) where
  | ok (a : α)
  | tooMany
  | fuelOut
deriving DecidableEq

/-- What one `process_paginated_query` call produces: the bytes it
wrote, the docs it fetched in order, the per-page trace
`(len docs, numFound)`, and the number of HTTP requests (attempts)
issued. -/
structure PPQOut where
  out : String
  docs : List String
  trace : List (Nat × Nat)
  reqs : Nat
deriving DecidableEq

/-- `process_paginated_query` (lines 247-343): fetch the page at the
current offset through `fetch_data`, append its docs (comma-newline
separated, no separator before the file's very first record), advance
the offset by the number of docs actually returned, re-read the total
from the page, and loop while `offset < total`.  `fuel` bounds the
recursion; the Python loop has no such bound. -/
def process_paginated_query (server : Nat → Page) :
    Nat → Nat → Bool → RunResult PPQOut
  | 0, _, _ => .fuelOut
  | fuel + 1, start, first =>
    match (fetch_data (fun i => decide ((server start).failures ≤ i))).1 with
    | none => .tooMany
    | some k =>
      if start + (server start).docs.length < (server start).numFound then
        match process_paginated_query server fuel
            (start + (server start).docs.length)
            (writeDocs (server start).docs first).2 with
        | .ok r => .ok ⟨(writeDocs (server start).docs first).1 ++ r.out,
                        (server start).docs ++ r.docs,
                        ((server start).docs.length, (server start).numFound)
                          :: r.trace,
                        (k + 1) + r.reqs⟩
        | .tooMany => .tooMany
        | .fuelOut => .fuelOut
      else .ok ⟨(writeDocs (server start).docs first).1, (server start).docs,
                [((server start).docs.length, (server start).numFound)], k + 1⟩

/-- Projection of the page trace of a pagination run. -/
def traceOf : RunResult PPQOut → Option (List (Nat × Nat))
  | .ok r => some r.trace
  | _ => none

/-- Projection of the request count of a pagination run. -/
def reqsOf : RunResult PPQOut → Option Nat
  | .ok r => some r.reqs
  | _ => none

/-- `stream_records` (lines 346-376): `prepare_for_writing` writes
`[`, one `process_paginated_query` call with `first_record=True` runs
from offset 0, `finalise` appends `]`. -/
def stream_records (server : Nat → Page) (fuel : Nat) :
    RunResult (String × List String × List (Nat × Nat)) :=
  match process_paginated_query server fuel 0 true with
  | .ok r => .ok ("[" ++ r.out ++ "]", r.docs, r.trace)
  | .tooMany => .tooMany
  | .fuelOut => .fuelOut

/-- The sequence of `process_paginated_query` calls made by
`stream_records_in_series_batches` (lines 862-970), abstracted as one
server per pass (Function/Agency pass, then each series batch, then
the optional relatedEntity pass).  The first pass is called with
`first_record=True` and every later pass with the literal `False`
(lines 878, 917, 969), regardless of what earlier passes returned.
Each pass starts at offset 0.  Returns the bytes written, the docs of
each pass, and the concatenated page trace. -/
def runPasses (fuel : Nat) :
    List (Nat → Page) → Bool →
      RunResult (String × List (List String) × List (Nat × Nat))
  | [], _ => .ok ("", [], [])
  | p :: ps, first =>
    match process_paginated_query p fuel 0 first with
    | .ok r =>
      match runPasses fuel ps false with
      | .ok (s, dss, tr) => .ok (r.out ++ s, r.docs :: dss, r.trace ++ tr)
      | .tooMany => .tooMany
      | .fuelOut => .fuelOut
    | .tooMany => .tooMany
    | .fuelOut => .fuelOut

/-- `stream_records_in_series_batches` with the surrounding file
lifecycle: `[` before the passes, `]` after. -/
def stream_records_in_series_batches (passes : List (Nat → Page)) (fuel : Nat) :
    RunResult (String × List (List String) × List (Nat × Nat)) :=
  match runPasses fuel passes true with
  | .ok (s, dss, tr) => .ok ("[" ++ s ++ "]", dss, tr)
  | .tooMany => .tooMany
  | .fuelOut => .fuelOut

/-! Spec-side description of the output shape: records separated by
comma-newline with no separator before the very first one. -/

/-- Spec-side: serialisations each preceded by a `,\n` separator. -/
def preJoin : List String → String
  | [] => ""
  | d :: ds => ",\n" ++ d ++ preJoin ds

/-- Spec-side: comma-newline separated serialisations with no
separator before the very first record. -/
def sepJoin : List String → String
  | [] => ""
  | d :: ds => d ++ preJoin ds

/-! ### Batch planner (`create_optimal_batches_from_counts`, lines 560-614)

Batches carry the `(series_id, record_count)` pairs; the Python lists
hold only the ids and recover each count from the `series_counts`
dict, whose keys are exactly the ids. -/

/-- The while loop of `create_optimal_batches_from_counts`: `cur` and
`curCount` are `current_batch` / `current_count`. -/
def batchGo (maxPer maxSeriesPer : Nat) :
    List (Nat × Nat) → List (Nat × Nat) → Nat → List (List (Nat × Nat))
  | [], cur, _ => if cur = [] then [] else [cur]
  | sc :: rest, cur, curCount =>
    if maxPer < sc.2 then
      (if cur = [] then [] else [cur]) ++ [sc] :: batchGo maxPer maxSeriesPer rest [] 0
    else if cur ≠ [] ∧ (maxPer < curCount + sc.2 ∨ maxSeriesPer ≤ cur.length) then
      cur :: batchGo maxPer maxSeriesPer rest [sc] sc.2
    else
      batchGo maxPer maxSeriesPer rest (cur ++ [sc]) (curCount + sc.2)

/-- `sorted(series_counts.items())`: the dict items sorted ascending
by series id (keys are distinct, so the id decides the order). -/
def sortedItems (series_counts : List (Nat × Nat)) : List (Nat × Nat) :=
  List.insertionSort (fun a b => a.1 ≤ b.1) series_counts

/-- `create_optimal_batches_from_counts(series_counts, max_per_batch,
max_series_per_batch)`. -/
def create_optimal_batches_from_counts (series_counts : List (Nat × Nat))
    (maxPer maxSeriesPer : Nat) : List (List (Nat × Nat)) :=
  batchGo maxPer maxSeriesPer (sortedItems series_counts) [] 0

instance : IsTotal (Nat × Nat) (fun a b => a.1 ≤ b.1) :=
  ⟨fun a b => Nat.le_total a.1 b.1⟩

instance : IsTrans (Nat × Nat) (fun a b => a.1 ≤ b.1) :=
  ⟨fun _ _ _ => Nat.le_trans⟩

/-- Invariant of the batching loop: provided the running batch matches
its running count, fits both caps and the series cap is positive,
every emitted batch fits the record cap or is an oversized singleton,
fits the series cap, is nonempty, and the batches concatenate back to
`cur ++ l`. -/
theorem batchGo_spec (maxPer maxSeriesPer : Nat) (hms : 1 ≤ maxSeriesPer)
    (l : List (Nat × Nat)) :
    ∀ (cur : List (Nat × Nat)) (curCount : Nat),
      curCount = (cur.map Prod.snd).sum → curCount ≤ maxPer →
      cur.length ≤ maxSeriesPer →
      (∀ b ∈ batchGo maxPer maxSeriesPer l cur curCount,
          ((b.map Prod.snd).sum ≤ maxPer ∨ ∃ p, b = [p] ∧ maxPer < p.2) ∧
          b.length ≤ maxSeriesPer ∧ b ≠ []) ∧
      (batchGo maxPer maxSeriesPer l cur curCount).flatten = cur ++ l := by
  induction l with
  | nil =>
    intro cur curCount h1 h2 h3
    by_cases hcur : cur = []
    · simp [batchGo, hcur]
    · refine ⟨?_, by simp [batchGo, hcur]⟩
      intro b hb
      simp only [batchGo, if_neg hcur, List.mem_singleton] at hb
      subst hb
      exact ⟨Or.inl (h1 ▸ h2), h3, hcur⟩
  | cons sc rest ih =>
    intro cur curCount h1 h2 h3
    by_cases hbig : maxPer < sc.2
    · -- a single series exceeding the cap gets its own batch
      have hrec := ih [] 0 rfl (Nat.zero_le _) (by simp)
      by_cases hcur : cur = []
      · subst hcur
        simp only [batchGo, if_pos hbig, if_pos rfl, List.nil_append]
        refine ⟨?_, by simp [hrec.2]⟩
        intro b hb
        rcases List.mem_cons.1 hb with hb | hb
        · subst hb
          exact ⟨Or.inr ⟨sc, rfl, hbig⟩, by simpa using hms, by simp⟩
        · exact hrec.1 b hb
      · simp only [batchGo, if_pos hbig, if_neg hcur, List.cons_append,
          List.nil_append]
        constructor
        · intro b hb
          rcases List.mem_cons.1 hb with hb | hb
          · subst hb; exact ⟨Or.inl (h1 ▸ h2), h3, hcur⟩
          rcases List.mem_cons.1 hb with hb | hb
          · subst hb
            exact ⟨Or.inr ⟨sc, rfl, hbig⟩, by simpa using hms, by simp⟩
          · exact hrec.1 b hb
        · simp [hrec.2]
    · by_cases hclose :
        cur ≠ [] ∧ (maxPer < curCount + sc.2 ∨ maxSeriesPer ≤ cur.length)
      · -- close the running batch, open a fresh one holding sc
        have hrec := ih [sc] sc.2 (by simp) (Nat.le_of_not_lt hbig)
          (by simpa using hms)
        simp only [batchGo, if_neg hbig, if_pos hclose]
        constructor
        · intro b hb
          rcases List.mem_cons.1 hb with hb | hb
          · subst hb; exact ⟨Or.inl (h1 ▸ h2), h3, hclose.1⟩
          · exact hrec.1 b hb
        · simp [hrec.2]
      · -- append sc to the running batch
        have hfits : curCount + sc.2 ≤ maxPer ∧ cur.length < maxSeriesPer := by
          by_cases hcur : cur = []
          · subst hcur
            simp only [List.map_nil, List.sum_nil] at h1
            subst h1
            exact ⟨by simpa using Nat.le_of_not_lt hbig, by simpa using hms⟩
          · rcases Decidable.not_and_iff_or_not.1 hclose with h | h
            · exact absurd hcur (by simpa using h)
            · push_neg at h
              exact h
        have hrec := ih (cur ++ [sc]) (curCount + sc.2)
          (by simp [h1]) hfits.1 (by simpa using hfits.2)
        simp only [batchGo, if_neg hbig, if_neg hclose]
        exact ⟨hrec.1, by simp [hrec.2]⟩

/-- C2: the planner's batches, for a series-count map with distinct
ids and positive caps, (i) each fit the record cap or are oversized
singletons, fit the series cap and are nonempty, (ii) partition the
input, and (iii) are strictly ordered by series id batch-to-batch. -/
theorem create_optimal_batches_spec (series_counts : List (Nat × Nat))
    (maxPer maxSeriesPer : Nat)
    (hkeys : (series_counts.map Prod.fst).Nodup)
    (_hmp : 1 ≤ maxPer) (hms : 1 ≤ maxSeriesPer) :
    (∀ b ∈ create_optimal_batches_from_counts series_counts maxPer maxSeriesPer,
        ((b.map Prod.snd).sum ≤ maxPer ∨ ∃ p, b = [p] ∧ maxPer < p.2) ∧
        b.length ≤ maxSeriesPer ∧ b ≠ []) ∧
    List.Perm
      (create_optimal_batches_from_counts series_counts maxPer maxSeriesPer).flatten
      series_counts ∧
    ((create_optimal_batches_from_counts series_counts maxPer
        maxSeriesPer).flatten.map Prod.fst).Nodup ∧
    (create_optimal_batches_from_counts series_counts maxPer
        maxSeriesPer).Pairwise
      (fun b₁ b₂ => ∀ x ∈ b₁, ∀ y ∈ b₂, x.1 < y.1) := by
  have hspec := batchGo_spec maxPer maxSeriesPer hms
    (sortedItems series_counts) [] 0 rfl (Nat.zero_le _) (by simp)
  have hflat : (create_optimal_batches_from_counts series_counts maxPer
      maxSeriesPer).flatten = sortedItems series_counts := by
    simpa [create_optimal_batches_from_counts] using hspec.2
  have hperm : List.Perm (sortedItems series_counts) series_counts :=
    List.perm_insertionSort _ series_counts
  have hsorted :
      (sortedItems series_counts).Pairwise (fun a b => a.1 ≤ b.1) :=
    List.sorted_insertionSort _ series_counts
  have hnodup : ((sortedItems series_counts).map Prod.fst).Nodup :=
    ((hperm.map Prod.fst).nodup_iff).2 hkeys
  have hne : (sortedItems series_counts).Pairwise (fun a b => a.1 ≠ b.1) :=
    List.pairwise_map.1 hnodup
  have hlt : (sortedItems series_counts).Pairwise (fun a b => a.1 < b.1) :=
    (hsorted.and hne).imp (fun h => Nat.lt_of_le_of_ne h.1 h.2)
  refine ⟨fun b hb => hspec.1 b (by simpa [create_optimal_batches_from_counts]
    using hb), hflat ▸ hperm, hflat ▸ hnodup, ?_⟩
  have := List.pairwise_flatten.1 (hflat ▸ hlt :
    (create_optimal_batches_from_counts series_counts maxPer
      maxSeriesPer).flatten.Pairwise (fun a b => a.1 < b.1))
  exact this.2

/-- C2 witness: the planner invariants at a concrete two-series count
map with caps 12 and 200; the series of weight 5 and 10 land in
separate batches because 5 + 10 exceeds the record cap. -/
theorem create_optimal_batches_witness :
    (∀ b ∈ create_optimal_batches_from_counts [(2, 10), (1, 5)] 12 200,
        ((b.map Prod.snd).sum ≤ 12 ∨ ∃ p, b = [p] ∧ 12 < p.2) ∧
        b.length ≤ 200 ∧ b ≠ []) ∧
    List.Perm
      (create_optimal_batches_from_counts [(2, 10), (1, 5)] 12 200).flatten
      [(2, 10), (1, 5)] ∧
    (((create_optimal_batches_from_counts [(2, 10), (1, 5)] 12
        200).flatten).map Prod.fst).Nodup ∧
    (create_optimal_batches_from_counts [(2, 10), (1, 5)] 12 200).Pairwise
      (fun b₁ b₂ => ∀ x ∈ b₁, ∀ y ∈ b₂, x.1 < y.1) :=
  create_optimal_batches_spec [(2, 10), (1, 5)] 12 200 (by decide)
    (by decide) (by decide)

/-! ### Output shape lemmas (claim C1) -/

theorem preJoin_append (a b : List String) :
    preJoin (a ++ b) = preJoin a ++ preJoin b := by
  induction a with
  | nil => simp [preJoin, String.empty_append]
  | cons d ds ih => simp [preJoin, ih, String.append_assoc]

theorem sepJoin_append (a b : List String) (ha : a ≠ []) :
    sepJoin (a ++ b) = sepJoin a ++ preJoin b := by
  cases a with
  | nil => exact absurd rfl ha
  | cons d ds => simp [sepJoin, preJoin_append, String.append_assoc]

theorem writeDocs_eq (ds : List String) (first : Bool) :
    writeDocs ds first =
      ((if first then sepJoin ds else preJoin ds), first && ds.isEmpty) := by
  induction ds generalizing first with
  | nil => cases first <;> simp [writeDocs, sepJoin, preJoin]
  | cons d ds ih =>
    cases first <;> simp [writeDocs, sepJoin, preJoin, ih false]

theorem writeDocs_fst (ds : List String) (first : Bool) :
    (writeDocs ds first).1 = if first then sepJoin ds else preJoin ds := by
  rw [writeDocs_eq]

theorem writeDocs_snd (ds : List String) (first : Bool) :
    (writeDocs ds first).2 = (first && ds.isEmpty) := by
  rw [writeDocs_eq]

/-- What one `process_paginated_query` call writes: the comma-newline
joined docs, with a leading separator exactly when `first_record` was
false on entry; the docs written are as many as the page trace says
were fetched. -/
theorem process_paginated_query_out (server : Nat → Page) :
    ∀ (fuel start : Nat) (first : Bool) (r : PPQOut),
      process_paginated_query server fuel start first = .ok r →
      r.out = (if first then sepJoin r.docs else preJoin r.docs) ∧
      r.docs.length = (r.trace.map Prod.fst).sum := by
  intro fuel
  induction fuel with
  | zero => intro start first r h; simp [process_paginated_query] at h
  | succ fuel ih =>
    intro start first r h
    rw [process_paginated_query] at h
    split at h
    · simp at h
    · split at h
      · split at h
        · next r' heq =>
          rw [RunResult.ok.injEq] at h
          subst h
          have hr' := ih _ _ _ heq
          rw [writeDocs_snd] at hr'
          refine ⟨?_, by simp [hr'.2]⟩
          show (writeDocs (server start).docs first).1 ++ r'.out = _
          rw [writeDocs_fst]
          rcases first with _ | _
          · have hout : r'.out = preJoin r'.docs := by simpa using hr'.1
            simp [hout, preJoin_append]
          · rcases hd : (server start).docs with _ | ⟨d, ds⟩
            · have hout : r'.out = sepJoin r'.docs := by
                simpa [hd] using hr'.1
              simp [hd, hout, sepJoin, String.empty_append]
            · have hout : r'.out = preJoin r'.docs := by
                simpa [hd] using hr'.1
              rw [if_pos rfl, if_pos rfl, hout,
                sepJoin_append _ _ (by simp [hd])]
        · simp at h
        · simp at h
      · rw [RunResult.ok.injEq] at h
        subst h
        refine ⟨?_, by simp⟩
        show (writeDocs (server start).docs first).1 = _
        rw [writeDocs_fst]

/-- What the sequence of batch-mode passes writes, when the first pass
is called with `first_record=True` and every later pass with the
hard-coded `False`. -/
theorem runPasses_out (fuel : Nat) :
    ∀ (passes : List (Nat → Page)) (first : Bool) (s : String)
      (dss : List (List String)) (tr : List (Nat × Nat)),
      runPasses fuel passes first = .ok (s, dss, tr) →
      s = (if first then
            (if dss.head?.getD [] ≠ [] ∨ dss.flatten = [] then
              sepJoin dss.flatten else s)
           else preJoin dss.flatten) ∧
      dss.flatten.length = (tr.map Prod.fst).sum := by
  intro passes
  induction passes with
  | nil =>
    intro first s dss tr h
    rw [runPasses] at h
    rw [RunResult.ok.injEq, Prod.mk.injEq, Prod.mk.injEq] at h
    obtain ⟨hs, hdss, htr⟩ := h
    subst hs; subst hdss; subst htr
    cases first <;> simp [sepJoin, preJoin]
  | cons p ps ih =>
    intro first s dss tr h
    rw [runPasses] at h
    split at h
    · next r heq =>
      split at h
      · next s2 dss2 tr2 heq2 =>
        rw [RunResult.ok.injEq, Prod.mk.injEq, Prod.mk.injEq] at h
        obtain ⟨hs, hdss, htr⟩ := h
        subst hs; subst hdss; subst htr
        have hr := process_paginated_query_out p fuel 0 first r heq
        have h2 := ih false s2 dss2 tr2 heq2
        have hs2 : s2 = preJoin dss2.flatten := by simpa using h2.1
        refine ⟨?_, by simp [hr.2, h2.2]⟩
        rcases first with _ | _
        · have hout : r.out = preJoin r.docs := by simpa using hr.1
          simp [hout, hs2, preJoin_append]
        · have hout : r.out = sepJoin r.docs := by simpa using hr.1
          by_cases hcond : (r.docs :: dss2).head?.getD [] ≠ [] ∨
              (r.docs :: dss2).flatten = []
          · rw [if_pos rfl, if_pos hcond]
            rcases hcond with hne | hall
            · simp only [List.head?_cons, Option.getD_some] at hne
              rw [hout, hs2, List.flatten_cons, sepJoin_append _ _ hne]
            · simp only [List.flatten_cons, List.append_eq_nil] at hall
              rw [hout, hs2, List.flatten_cons, hall.1, hall.2]
              simp [sepJoin, preJoin, String.append_empty]
          · rw [if_pos rfl, if_neg hcond]
      · simp at h
      · simp at h
    · simp at h
    · simp at h

/-- C1 (amended): a plain-mode harvest always produces
`[` + comma-newline-joined records + `]` with as many records as the
page fetches returned; a series-batch harvest does so provided its
first pass wrote at least one record or no pass wrote any (when the
first pass is empty and a later one is not, the hard-coded
`first_record=False` of lines 917/969 puts a separator before the
file's first record). -/
theorem stream_output_shape :
    (∀ (server : Nat → Page) (fuel : Nat) (out : String)
        (docs : List String) (tr : List (Nat × Nat)),
        stream_records server fuel = .ok (out, docs, tr) →
        out = "[" ++ sepJoin docs ++ "]" ∧
        docs.length = (tr.map Prod.fst).sum) ∧
    (∀ (passes : List (Nat → Page)) (fuel : Nat) (out : String)
        (dss : List (List String)) (tr : List (Nat × Nat)),
        stream_records_in_series_batches passes fuel = .ok (out, dss, tr) →
        dss.head?.getD [] ≠ [] ∨ dss.flatten = [] →
        out = "[" ++ sepJoin dss.flatten ++ "]" ∧
        dss.flatten.length = (tr.map Prod.fst).sum) := by
  constructor
  · intro server fuel out docs tr h
    rw [stream_records] at h
    split at h
    · next r heq =>
      rw [RunResult.ok.injEq, Prod.mk.injEq, Prod.mk.injEq] at h
      obtain ⟨hout, hdocs, htr⟩ := h
      subst hout; subst hdocs; subst htr
      have hr := process_paginated_query_out server fuel 0 true r heq
      have h1 : r.out = sepJoin r.docs := by simpa using hr.1
      exact ⟨by rw [h1], hr.2⟩
    · simp at h
    · simp at h
  · intro passes fuel out dss tr h hcond
    rw [stream_records_in_series_batches] at h
    split at h
    · next s2 dss2 tr2 heq =>
      rw [RunResult.ok.injEq, Prod.mk.injEq, Prod.mk.injEq] at h
      obtain ⟨hout, hdss, htr⟩ := h
      subst hout; subst hdss; subst htr
      have hr := runPasses_out fuel passes true s2 dss2 tr2 heq
      have h1 := hr.1
      rw [if_pos rfl, if_pos hcond] at h1
      exact ⟨by rw [h1], hr.2⟩
    · simp at h
    · simp at h

/-- A server whose every page is empty and reports `numFound = 0`
(a Function/Agency pass matching no records). -/
def emptyPage : Nat → Page := fun _ => ⟨[], 0, 0⟩

/-- A server with a single one-record page. -/
def oneRecPage : Nat → Page := fun _ => ⟨["r"], 1, 0⟩

/-- C1 counterexample: in series-batch mode, when the unconditional
first pass returns zero records and a later pass returns one, the
finalized file is `[,\nr]` — a separator precedes the very first
record, so the file is not `[` + comma-newline-joined records + `]`
(and is not a valid JSON array). -/
theorem stream_output_shape_counterexample :
    stream_records_in_series_batches [emptyPage, oneRecPage] 1 =
      .ok ("[,\nr]", [[], ["r"]], [(0, 0), (1, 1)]) ∧
    "[,\nr]" ≠ "[" ++ sepJoin ([[], ["r"]] : List (List String)).flatten ++ "]" := by
  exact ⟨rfl, by decide⟩

/-- C1 witness: the plain-mode half of `stream_output_shape` at a
concrete one-page server. -/
theorem stream_output_shape_witness :
    "[r]" = "[" ++ sepJoin ["r"] ++ "]" ∧
    (["r"] : List String).length = ([(1, 1)].map Prod.fst).sum :=
  stream_output_shape.1 oneRecPage 1 "[r]" ["r"] [(1, 1)] rfl

/-! ### Claim C3: offset advancement and termination -/

/-- Spec-side description of a pagination trace of `(page record
count, reported total)` pairs: each page is fetched at the offset
reached by adding the record counts the server actually returned so
far, each page's total is re-read from that page's response, the loop
continues exactly while the advanced offset is below the latest total,
and stops as soon as it is not. -/
def TraceOK (server : Nat → Page) : Nat → List (Nat × Nat) → Prop
  | _, [] => False
  | start, p :: rest =>
    p.1 = (server start).docs.length ∧ p.2 = (server start).numFound ∧
    (match rest with
     | [] => p.2 ≤ start + p.1
     | _ :: _ => start + p.1 < p.2 ∧ TraceOK server (start + p.1) rest)

/-- The server of the spec's scenario: 2,500 matching records served
1,000 per page, with the fetch of the second page (offset 1000)
failing on its first two attempts. -/
def scenarioServer : Nat → Page := fun o =>
  ⟨List.replicate (if o < 2000 then 1000 else 2500 - o) "d", 2500,
   if o = 1000 then 2 else 0⟩

set_option maxRecDepth 100000 in
/-- C3: every successful pagination run advances the offset by exactly
the number of records each page returned, re-reads the total from
every page and stops exactly when offset ≥ the latest total; the
2,500-record scenario with two transient failures on the second page
performs exactly three fetches of 1000, 1000 and 500 records, using
1 + 3 + 1 = 5 HTTP attempts. -/
theorem pagination_trace_spec :
    (∀ (server : Nat → Page) (fuel start : Nat) (first : Bool)
        (tr : List (Nat × Nat)),
        traceOf (process_paginated_query server fuel start first) = some tr →
        TraceOK server start tr) ∧
    traceOf (process_paginated_query scenarioServer 3 0 true) =
      some [(1000, 2500), (1000, 2500), (500, 2500)] ∧
    reqsOf (process_paginated_query scenarioServer 3 0 true) = some 5 := by
  refine ⟨?_, rfl, rfl⟩
  intro server fuel
  induction fuel with
  | zero => intro start first tr h; simp [process_paginated_query, traceOf] at h
  | succ fuel ih =>
    intro start first tr h
    rw [process_paginated_query] at h
    split at h
    · simp [traceOf] at h
    · split at h
      · next hlt =>
        split at h
        · next r' heq =>
          simp only [traceOf, Option.some.injEq] at h
          subst h
          have hr' := ih (start + (server start).docs.length)
            (writeDocs (server start).docs first).2 r'.trace
            (by rw [heq]; rfl)
          rcases htr : r'.trace with _ | ⟨q, qs⟩
          · rw [htr] at hr'; exact absurd hr' (by simp [TraceOK])
          · rw [htr] at hr'
            exact ⟨rfl, rfl, hlt, htr ▸ hr'⟩
        · simp [traceOf] at h
        · simp [traceOf] at h
      · next hge =>
        simp only [traceOf, Option.some.injEq] at h
        subst h
        exact ⟨rfl, rfl, Nat.le_of_not_lt hge⟩

/-- C3 witness: the general half of `pagination_trace_spec` applied to
the concrete scenario run it also certifies. -/
theorem pagination_trace_witness :
    TraceOK scenarioServer 0 [(1000, 2500), (1000, 2500), (500, 2500)] :=
  pagination_trace_spec.1 scenarioServer 3 0 true _ pagination_trace_spec.2.1

/-! ### Claim C4: per-attempt timeout, retry budget, backoff schedule,
per-page freshness — for both the harvester and the tracker transport -/

/-- When every attempt within the remaining budget fails, the loop
exhausts the budget, waiting `BASE_WAIT_TIME` times each successive
failure count. -/
theorem fetchLoop_all_fail (attempt : Nat → Bool) :
    ∀ (rem f : Nat), (∀ j, j < rem → attempt (f + j) = false) →
      fetchLoop attempt rem f =
        (none, (List.range rem).map (fun j => BASE_WAIT_TIME * (f + j + 1))) := by
  intro rem
  induction rem with
  | zero => intro f _; simp [fetchLoop]
  | succ rem ih =>
    intro f hfail
    rw [fetchLoop, if_neg (by simp [show attempt f = false by
      simpa using hfail 0 (by omega)])]
    rw [ih (f + 1) (fun j hj => by
      have := hfail (j + 1) (by omega)
      simpa [Nat.add_assoc, Nat.add_comm 1 j] using this)]
    rw [List.range_succ_eq_map]
    refine congrArg (Prod.mk none) ?_
    simp only [List.map_cons, List.map_map, Nat.add_zero]
    refine congrArg (List.cons _) ?_
    apply List.map_congr_left
    intro j _
    simp only [Function.comp_apply]
    congr 1
    omega

/-- When the first `k` attempts fail and attempt `k` succeeds within
the remaining budget, the loop returns attempt index `f + k` after the
waits `BASE_WAIT_TIME * (f+1) … BASE_WAIT_TIME * (f+k)`. -/
theorem fetchLoop_first_success (attempt : Nat → Bool) :
    ∀ (rem k f : Nat), k < rem →
      (∀ j, j < k → attempt (f + j) = false) → attempt (f + k) = true →
      fetchLoop attempt rem f =
        (some (f + k), (List.range k).map (fun j => BASE_WAIT_TIME * (f + j + 1))) := by
  intro rem
  induction rem with
  | zero => intro k f hk; omega
  | succ rem ih =>
    intro k f hk hfail hsucc
    rcases k with _ | k
    · rw [fetchLoop, if_pos (by simpa using hsucc)]
      simp
    · rw [fetchLoop, if_neg (by simp [show attempt f = false by
        simpa using hfail 0 (by omega)])]
      rw [ih k (f + 1) (by omega)
        (fun j hj => by
          have := hfail (j + 1) (by omega)
          simpa [Nat.add_assoc, Nat.add_comm 1 j] using this)
        (by
          have : f + 1 + k = f + (k + 1) := by omega
          rw [this]; exact hsucc)]
      rw [List.range_succ_eq_map, Prod.mk.injEq]
      constructor
      · exact congrArg some (by omega)
      · simp only [List.map_cons, List.map_map, Nat.add_zero]
        refine congrArg (List.cons _) ?_
        apply List.map_congr_left
        intro j _
        simp only [Function.comp_apply]
        congr 1
        omega

/-- A fetch whose first `f` attempts fail succeeds at attempt `f` when
`f` is within the budget, and exhausts the budget otherwise. -/
theorem fetch_data_first_failures (f : Nat) :
    (fetch_data (fun i => decide (f ≤ i))).1 =
      if f < MAX_CONSECUTIVE_FAILURES then some f else none := by
  rcases Nat.lt_or_ge f MAX_CONSECUTIVE_FAILURES with h | h
  · rw [if_pos h, fetch_data,
      fetchLoop_first_success _ MAX_CONSECUTIVE_FAILURES f 0 h
        (fun j hj => by simp; omega) (by simp)]
    simp
  · have h6 : 6 ≤ f := h
    rw [if_neg (by omega), fetch_data,
      fetchLoop_all_fail _ MAX_CONSECUTIVE_FAILURES 0
        (fun j hj => by
          have hj6 : j < 6 := hj
          simp
          omega)]

/-- Backoff waits of the retry loop are strictly increasing. -/
theorem fetchLoop_waits_increasing (attempt : Nat → Bool) :
    ∀ (rem f : Nat),
      List.Chain' (· < ·) (fetchLoop attempt rem f).2 ∧
      ∀ w ∈ (fetchLoop attempt rem f).2, BASE_WAIT_TIME * (f + 1) ≤ w := by
  intro rem
  induction rem with
  | zero => intro f; simp [fetchLoop]
  | succ rem ih =>
    intro f
    rw [fetchLoop]
    split
    · simp
    · have hrec := ih (f + 1)
      constructor
      · rw [List.chain'_cons']
        refine ⟨?_, hrec.1⟩
        intro y hy
        have hmem : y ∈ (fetchLoop attempt rem (f + 1)).2 :=
          List.mem_of_mem_head? hy
        have := hrec.2 y hmem
        simp only [BASE_WAIT_TIME] at this ⊢
        omega
      · intro w hw
        rcases List.mem_cons.1 hw with hw | hw
        · omega
        · have := hrec.2 w hw
          simp only [BASE_WAIT_TIME] at this ⊢
          omega

/-- `fetchLoopR` projects to `fetchLoop`, and the GET calls it records
are one per attempt, each carrying the fixed 60-second timeout
keyword. -/
theorem fetchLoopR_eq (attempt : Nat → Bool) (url : String) :
    ∀ rem f,
      (fetchLoopR attempt url rem f).1 = (fetchLoop attempt rem f).1 ∧
      (fetchLoopR attempt url rem f).2.1 = (fetchLoop attempt rem f).2 ∧
      (fetchLoopR attempt url rem f).2.2 =
        List.replicate
          ((fetchLoop attempt rem f).2.length +
            if (fetchLoop attempt rem f).1.isSome then 1 else 0)
          ⟨url, some REQUEST_TIMEOUT_SECONDS⟩ := by
  intro rem
  induction rem with
  | zero => intro f; simp [fetchLoopR, fetchLoop]
  | succ rem ih =>
    intro f
    cases hA : attempt f
    · rw [fetchLoopR, fetchLoop, if_neg (by simp [hA]), if_neg (by simp [hA])]
      have h := ih (f + 1)
      dsimp only
      refine ⟨h.1, by rw [h.2.1], ?_⟩
      rw [h.2.2, List.length_cons]
      have hn : (fetchLoop attempt rem (f + 1)).2.length + 1 +
          (if (fetchLoop attempt rem (f + 1)).1.isSome then 1 else 0) =
          ((fetchLoop attempt rem (f + 1)).2.length +
            (if (fetchLoop attempt rem (f + 1)).1.isSome then 1 else 0)) + 1 := by
        omega
      rw [hn, List.replicate_succ]
    · rw [fetchLoopR, fetchLoop, if_pos (by simp [hA]), if_pos (by simp [hA])]
      simp

/-- Every GET the harvester transport issues carries the 60-second
timeout keyword. -/
theorem fetch_dataR_timeouts (attempt : Nat → Bool) (url : String) :
    allTimedOut (fetch_dataR attempt url).2.2 = true := by
  have h := (fetchLoopR_eq attempt url MAX_CONSECUTIVE_FAILURES 0).2.2
  rw [fetch_dataR, h, allTimedOut, List.all_eq_true]
  intro g hg
  rw [List.eq_of_mem_replicate hg]
  rfl

/-- When every iteration fails, the tracker loop runs all
`MAX_RETRIES` iterations, sleeping after every failure including the
last, each GET carrying no timeout. -/
theorem fetchFor_all_fail (attempt : Nat → Bool) (url : String) :
    ∀ (rem i : Nat), (∀ j, j < rem → attempt (i + j) = false) →
      Track.fetchFor attempt url rem i =
        (none,
          (List.range rem).map (fun j => Track.BASE_WAIT_TIME * (i + j + 1)),
          List.replicate rem ⟨url, none⟩) := by
  intro rem
  induction rem with
  | zero => intro i _; simp [Track.fetchFor]
  | succ rem ih =>
    intro i hfail
    rw [Track.fetchFor, if_neg (by simp [show attempt i = false by
      simpa using hfail 0 (by omega)])]
    rw [ih (i + 1) (fun j hj => by
      have := hfail (j + 1) (by omega)
      simpa [Nat.add_assoc, Nat.add_comm 1 j] using this)]
    dsimp only
    rw [List.range_succ_eq_map, List.replicate_succ]
    simp only [Prod.mk.injEq]
    refine ⟨by trivial, ?_, by trivial⟩
    simp only [List.map_cons, List.map_map, Nat.add_zero]
    refine congrArg (List.cons _) ?_
    apply List.map_congr_left
    intro j _
    simp only [Function.comp_apply]
    congr 1
    omega

/-- When the first `k` iterations fail and iteration `k` succeeds
within the remaining iterations, the tracker loop returns index
`i + k` after `k` sleeps, having issued `k + 1` GET calls, none
carrying a timeout. -/
theorem fetchFor_first_success (attempt : Nat → Bool) (url : String) :
    ∀ (rem k i : Nat), k < rem →
      (∀ j, j < k → attempt (i + j) = false) → attempt (i + k) = true →
      Track.fetchFor attempt url rem i =
        (some (i + k),
          (List.range k).map (fun j => Track.BASE_WAIT_TIME * (i + j + 1)),
          List.replicate (k + 1) ⟨url, none⟩) := by
  intro rem
  induction rem with
  | zero => intro k i hk; omega
  | succ rem ih =>
    intro k i hk hfail hsucc
    rcases k with _ | k
    · rw [Track.fetchFor, if_pos (by simpa using hsucc)]
      simp
    · rw [Track.fetchFor, if_neg (by simp [show attempt i = false by
        simpa using hfail 0 (by omega)])]
      rw [ih k (i + 1) (by omega)
        (fun j hj => by
          have := hfail (j + 1) (by omega)
          simpa [Nat.add_assoc, Nat.add_comm 1 j] using this)
        (by
          have h1k : i + 1 + k = i + (k + 1) := by omega
          rw [h1k]; exact hsucc)]
      dsimp only
      rw [List.range_succ_eq_map, List.replicate_succ]
      simp only [Prod.mk.injEq]
      refine ⟨by exact congrArg some (by omega), ?_, by trivial⟩
      simp only [List.map_cons, List.map_map, Nat.add_zero]
      refine congrArg (List.cons _) ?_
      apply List.map_congr_left
      intro j _
      simp only [Function.comp_apply]
      congr 1
      omega

/-- No GET the tracker transport issues carries any timeout. -/
theorem fetchFor_no_timeout (attempt : Nat → Bool) (url : String) :
    ∀ rem i, noTimeout (Track.fetchFor attempt url rem i).2.2 = true := by
  intro rem
  induction rem with
  | zero => intro i; rfl
  | succ rem ih =>
    intro i
    rw [Track.fetchFor]
    split
    · rfl
    · dsimp only
      have h := ih (i + 1)
      rw [noTimeout, List.all_cons]
      rw [noTimeout] at h
      simpa using h

/-- C4 counterexample, refuting the original per-attempt-timeout
conjunct on the claim's cited tracker transport: a call to
`prov-api-track.py`'s `fetch_data` whose first attempt succeeds issues
exactly one GET, carrying no timeout keyword at all (`requests.get(url)`
at line 79), so that single fetch attempt is not bounded by the claimed
fixed 60-second timeout. -/
theorem transport_retry_counterexample :
    (Track.fetch_data (fun _ => true)
        "https://api.prov.vic.gov.au/search/query").2.2 =
      [⟨"https://api.prov.vic.gov.au/search/query", none⟩] ∧
    allTimedOut
      (Track.fetch_data (fun _ => true)
        "https://api.prov.vic.gov.au/search/query").2.2 = false := by
  constructor
  · rfl
  · rfl

/-- C4 (amended): every GET the harvester transport issues carries the
fixed 60-second timeout keyword (`requests.get(url, timeout=60)`, line
105), where the request-recording loop projects to the retry loop the
pagination proofs use; six consecutive failures exhaust the budget
after the strictly increasing waits 63, 126, 189, 252, 315, 378 and
raise the terminal error; a success at attempt `k` comes after the
waits `63·1 … 63·k` (`BASE_WAIT_TIME` times the attempt number); the
failure counter is fresh per page, so a pagination run never raises
`TooManyFailedRequestsError` while every single page stays within the
budget.  The tracker transport (`prov-api-track.py` `fetch_data`)
shares the budget of 6, the `63 × attemptNumber` backoff and the
terminal error, with a loop counter that restarts at zero on every
call, but issues every one of its GET calls with no timeout keyword:
its attempts are not time-bounded. -/
theorem transport_retry_spec :
    (∀ (attempt : Nat → Bool) (url : String),
        allTimedOut (fetch_dataR attempt url).2.2 = true) ∧
    (∀ (attempt : Nat → Bool) (url : String),
        (fetch_dataR attempt url).1 = (fetch_data attempt).1 ∧
        (fetch_dataR attempt url).2.1 = (fetch_data attempt).2) ∧
    (∀ attempt : Nat → Bool,
        (∀ i, i < MAX_CONSECUTIVE_FAILURES → attempt i = false) →
        fetch_data attempt = (none, [63, 126, 189, 252, 315, 378])) ∧
    (∀ (attempt : Nat → Bool) (k : Nat), k < MAX_CONSECUTIVE_FAILURES →
        (∀ i, i < k → attempt i = false) → attempt k = true →
        fetch_data attempt =
          (some k, (List.range k).map (fun i => BASE_WAIT_TIME * (i + 1)))) ∧
    (∀ attempt : Nat → Bool, List.Chain' (· < ·) (fetch_data attempt).2) ∧
    (∀ (server : Nat → Page) (fuel start : Nat) (first : Bool),
        (∀ o, (server o).failures < MAX_CONSECUTIVE_FAILURES) →
        process_paginated_query server fuel start first ≠ .tooMany) ∧
    (∀ (attempt : Nat → Bool) (url : String),
        (∀ i, i < Track.MAX_RETRIES → attempt i = false) →
        Track.fetch_data attempt url =
          (none, [63, 126, 189, 252, 315, 378],
            List.replicate Track.MAX_RETRIES ⟨url, none⟩)) ∧
    (∀ (attempt : Nat → Bool) (url : String) (k : Nat),
        k < Track.MAX_RETRIES →
        (∀ i, i < k → attempt i = false) → attempt k = true →
        Track.fetch_data attempt url =
          (some k,
            (List.range k).map (fun i => Track.BASE_WAIT_TIME * (i + 1)),
            List.replicate (k + 1) ⟨url, none⟩)) ∧
    (∀ (attempt : Nat → Bool) (url : String),
        noTimeout (Track.fetch_data attempt url).2.2 = true) := by
  refine ⟨fetch_dataR_timeouts, ?_, ?_, ?_, ?_, ?_, ?_, ?_, ?_⟩
  · intro attempt url
    exact ⟨(fetchLoopR_eq attempt url MAX_CONSECUTIVE_FAILURES 0).1,
      (fetchLoopR_eq attempt url MAX_CONSECUTIVE_FAILURES 0).2.1⟩
  · intro attempt h
    rw [fetch_data, fetchLoop_all_fail attempt MAX_CONSECUTIVE_FAILURES 0
      (fun j hj => by simpa using h j hj)]
    rfl
  · intro attempt k hk h hsucc
    rw [fetch_data, fetchLoop_first_success attempt MAX_CONSECUTIVE_FAILURES
      k 0 hk (fun j hj => by simpa using h j hj) (by simpa using hsucc)]
    simp
  · intro attempt
    exact (fetchLoop_waits_increasing attempt MAX_CONSECUTIVE_FAILURES 0).1
  · intro server fuel
    induction fuel with
    | zero => intro start first _ h; simp [process_paginated_query] at h
    | succ fuel ih =>
      intro start first hbudget h
      rw [process_paginated_query] at h
      rw [fetch_data_first_failures (server start).failures,
        if_pos (hbudget start)] at h
      split at h
      · next heq => exact absurd heq (by simp)
      · next k heq =>
        split at h
        · split at h
          · simp at h
          · next heq2 => exact absurd heq2 (ih _ _ hbudget)
          · simp at h
        · simp at h
  · intro attempt url h
    rw [Track.fetch_data, fetchFor_all_fail attempt url Track.MAX_RETRIES 0
      (fun j hj => by simpa using h j hj)]
    rfl
  · intro attempt url k hk h hsucc
    rw [Track.fetch_data, fetchFor_first_success attempt url Track.MAX_RETRIES
      k 0 hk (fun j hj => by simpa using h j hj) (by simpa using hsucc)]
    simp
  · intro attempt url
    exact fetchFor_no_timeout attempt url Track.MAX_RETRIES 0

/-- C4 witness: `transport_retry_spec` at concrete attempt oracles, a
concrete URL, and the scenario server, whose pages fail 0, 2 and 0
times. -/
theorem transport_retry_witness :
    allTimedOut (fetch_dataR (fun i => decide (2 ≤ i)) "u").2.2 = true ∧
    fetch_data (fun _ => false) = (none, [63, 126, 189, 252, 315, 378]) ∧
    fetch_data (fun i => decide (2 ≤ i)) = (some 2, [63, 126]) ∧
    process_paginated_query scenarioServer 3 0 true ≠ .tooMany ∧
    Track.fetch_data (fun _ => false) "u" =
      (none, [63, 126, 189, 252, 315, 378],
        List.replicate 6 (⟨"u", none⟩ : HttpGet)) ∧
    Track.fetch_data (fun i => decide (2 ≤ i)) "u" =
      (some 2, [63, 126], List.replicate 3 (⟨"u", none⟩ : HttpGet)) ∧
    noTimeout (Track.fetch_data (fun i => decide (2 ≤ i)) "u").2.2 = true := by
  refine ⟨transport_retry_spec.1 _ "u",
    transport_retry_spec.2.2.1 _ (fun i _ => rfl), ?_, ?_, ?_, ?_,
    transport_retry_spec.2.2.2.2.2.2.2.2 _ "u"⟩
  · have := transport_retry_spec.2.2.2.1 (fun i => decide (2 ≤ i)) 2
      (by decide) (fun i hi => by interval_cases i <;> rfl) (by decide)
    simpa using this
  · exact transport_retry_spec.2.2.2.2.2.1 scenarioServer 3 0 true
      (fun o => by
        show (if o = 1000 then 2 else 0) < MAX_CONSECUTIVE_FAILURES
        split <;> decide)
  · exact transport_retry_spec.2.2.2.2.2.2.1 _ "u" (fun i _ => rfl)
  · have := transport_retry_spec.2.2.2.2.2.2.2.1 (fun i => decide (2 ≤ i)) "u" 2
      (by decide) (fun i hi => by interval_cases i <;> rfl) (by decide)
    simpa using this

/-! ### Claims C5 and C6: file lifecycle -/

/-- The on-disk and network-facing state a run starts from and leaves
behind: content of the file under the final output name (if any),
content of the `.incomplete` artifact (if any), the checkpointed next
offset, and a counter of HTTP requests issued so far. -/
structure SysState where
  finalContent : Option String
  incompleteContent : Option String
  checkpointOffset : Nat
  requests : Nat
deriving DecidableEq

/-- `FileManager.check_existing_files` (lines 208-220): true when a
file already exists under the final output name. -/
def check_existing_files (st : SysState) : Bool :=
  st.finalContent.isSome

inductive HarvestErr where
  | alreadyExists
  | tooManyFailures
  | outOfFuel
deriving DecidableEq

/-- `main` (lines 1090-1119) with the `stream_records` lifecycle
(lines 346-376, 222-244): `check_existing_files` runs and exits with
status 1 before any request is issued and before anything is written;
otherwise `prepare_for_writing` creates the `.incomplete` file with
`[`, the pagination runs, and `finalise` appends `]` and renames the
artifact to the final name.  Request accounting on the two failure
paths is not modelled (no claim depends on it). -/
def main_run (st : SysState) (server : Nat → Page) (fuel : Nat) :
    Option HarvestErr × SysState :=
  if check_existing_files st then (some .alreadyExists, st)
  else
    match process_paginated_query server fuel 0 true with
    | .ok r => (none,
        { st with incompleteContent := none,
                  finalContent := some ("[" ++ r.out ++ "]"),
                  requests := st.requests + r.reqs })
    | .tooMany => (some .tooManyFailures,
        { st with incompleteContent := some "[" })
    | .fuelOut => (some .outOfFuel,
        { st with incompleteContent := some "[" })

/-- C6: with a file already under the final output name, the harvest
aborts with the destination-conflict error, issues zero HTTP requests,
writes nothing, and leaves the pre-existing file exactly as it was. -/
theorem existing_output_aborts (st : SysState) (server : Nat → Page)
    (fuel : Nat) (c : String) (h : st.finalContent = some c) :
    main_run st server fuel = (some .alreadyExists, st) ∧
    (main_run st server fuel).2.requests = st.requests ∧
    (main_run st server fuel).2.finalContent = some c := by
  have hchk : check_existing_files st = true := by
    simp [check_existing_files, h]
  refine ⟨by simp [main_run, hchk], ?_, ?_⟩ <;> simp [main_run, hchk, h]

/-- C6 witness: `existing_output_aborts` at a concrete state holding a
pre-existing final file. -/
theorem existing_output_aborts_witness :
    main_run ⟨some "old", none, 0, 0⟩ oneRecPage 1 =
      (some .alreadyExists, ⟨some "old", none, 0, 0⟩) ∧
    (main_run ⟨some "old", none, 0, 0⟩ oneRecPage 1).2.requests = 0 ∧
    (main_run ⟨some "old", none, 0, 0⟩ oneRecPage 1).2.finalContent =
      some "old" :=
  existing_output_aborts ⟨some "old", none, 0, 0⟩ oneRecPage 1 "old" rfl

inductive ResumeErr where
  | cannotResume
  | fetchFailed
deriving DecidableEq

/-- Modelled from the spec: the Python sources under `src/` contain no
resume implementation (there is no `--resume` flag); spec §3
(`OutputArtifact`), §4.3 (Progress Store: "On resume, if the
in-progress artifact is absent, resuming fails with `CannotResume`")
and §7 ("Resume-precondition failures (`CannotResume`: no in-progress
artifact found): fatal, reported before any network activity") define
the operation.  When the artifact exists, the harvest resumes
paginating from the checkpointed offset, appends to the artifact and
finalises as usual. -/
def resume_run (st : SysState) (server : Nat → Page) (fuel : Nat) :
    Option ResumeErr × SysState :=
  match st.incompleteContent with
  | none => (some .cannotResume, st)
  | some pending =>
    match process_paginated_query server fuel st.checkpointOffset false with
    | .ok r => (none,
        { st with incompleteContent := none,
                  finalContent := some (pending ++ r.out ++ "]"),
                  requests := st.requests + r.reqs })
    | _ => (some .fetchFailed, st)

/-- C5: resuming with the in-progress artifact absent fails with
`CannotResume`, issues zero HTTP requests, and changes nothing; the
operation's precondition is the existence of the artifact. -/
theorem resume_requires_artifact (st : SysState) (server : Nat → Page)
    (fuel : Nat) (h : st.incompleteContent = none) :
    resume_run st server fuel = (some .cannotResume, st) ∧
    (resume_run st server fuel).2.requests = st.requests := by
  refine ⟨by simp [resume_run, h], by simp [resume_run, h]⟩

/-- C5 witness: `resume_requires_artifact` at a concrete state with no
in-progress artifact. -/
theorem resume_requires_artifact_witness :
    resume_run ⟨none, none, 0, 0⟩ oneRecPage 1 =
      (some .cannotResume, ⟨none, none, 0, 0⟩) ∧
    (resume_run ⟨none, none, 0, 0⟩ oneRecPage 1).2.requests = 0 :=
  resume_requires_artifact ⟨none, none, 0, 0⟩ oneRecPage 1 rfl

end ProvHarvest

namespace ProvStats

/-! ## Part 2: `prov-harvest-stats.py`

`process_object` folds one record into the accumulator;
`process_json_stream` streams records through it inside one generic
try/except, so any exception suppresses the final report;
`print_stats_json` assembles the report in a second pass.

Python `Counter`s are modelled as the list of their increment events;
`dict`s and `defaultdict`s as association lists in insertion order;
`set`s as duplicate-free insertion-ordered lists; a record field that
may be absent is an `Option`. -/

/-- Association-list lookup (`dict.__getitem__` when the key may be
absent). -/
def getA [DecidableEq κ] : List (κ × ν) → κ → Option ν
  | [], _ => none
  | (k', v) :: rest, k => if k' = k then some v else getA rest k

/-- Association-list store: replace in place, or append preserving
insertion order (Python dict assignment). -/
def setA [DecidableEq κ] : List (κ × ν) → κ → ν → List (κ × ν)
  | [], k, v => [(k, v)]
  | (k', v') :: rest, k, v =>
    if k' = k then (k, v) :: rest else (k', v') :: setA rest k v

/-- `defaultdict` access followed by a mutation of the entry. -/
def updA [DecidableEq κ] (m : List (κ × ν)) (k : κ) (dflt : ν)
    (f : ν → ν) : List (κ × ν) :=
  setA m k (f ((getA m k).getD dflt))

/-- Python `set.add`. -/
def insSet [DecidableEq β] (s : List β) (x : β) : List β :=
  if x ∈ s then s else s ++ [x]

/-- Python `set.update`. -/
def unionSet [DecidableEq β] (s : List β) (xs : List β) : List β :=
  xs.foldl insSet s

/-- One harvested record, with the fields `process_object` reads.
`timestamp = some none` models a field present whose `int()` raises
`ValueError`; `some (some t)` a field that parses to the integer
`t`. -/
structure Obj where
  category : Option String := none
  identifier : Option String := none
  entityId : Option String := none
  series_id : Option String := none
  timestamp : Option (Option Int) := none
  barcode : Option String := none
  box_barcode : Option String := none
  iiifManifest : Bool := false
  agenciesIds : List String := []
  agenciesTitles : List String := []
  title : Option String := none
deriving DecidableEq

/-- Per-series accumulator entry (lines 84-94). -/
structure SeriesStats where
  agencies : List String := []
  consignments : Nat := 0
  iiif_manifests : Nat := 0
  images : Nat := 0
  items : Nat := 0
  related_entities : Nat := 0
  title : String := ""
  units : Nat := 0
  years : List String := []
deriving DecidableEq

/-- Per-agency accumulator entry (lines 95-104).  A series key may be
Python `None` (a relatedEntity whose `_id` did not match), hence
`Option String`. -/
structure AgencyStats where
  title : String := ""
  consignments : Nat := 0
  iiif_manifests : Nat := 0
  images : Nat := 0
  items : Nat := 0
  series : List (Option String) := []
  units : Nat := 0
  years : List String := []
deriving DecidableEq

/-- The whole accumulator (lines 82-110).  The top-level
`related_entities` counter exists in the source dict but is never
incremented. -/
structure Stats where
  category : List String := []
  series : List (Option String × SeriesStats) := []
  agencies : List (String × AgencyStats) := []
  year : List String := []
  iiif_manifests : Nat := 0
  objects : Nat := 0
  related_entities : Nat := 0
  units : Nat := 0
deriving DecidableEq

/-- Numeric value of a digit run. -/
def digitsToNat (cs : List Char) : Nat :=
  cs.foldl (fun n c => 10 * n + (c.toNat - 48)) 0

/-- `re.match(r'VPRS (\d+)/P', identifier)` on the character list. -/
def matchVPRSIdentifier : List Char → Option String
  | 'V' :: 'P' :: 'R' :: 'S' :: ' ' :: rest =>
    if rest.takeWhile Char.isDigit ≠ [] ∧
        (rest.dropWhile Char.isDigit).take 2 = ['/', 'P'] then
      some (String.mk (rest.takeWhile Char.isDigit))
    else none
  | _ => none

/-- `extract_series_id_from_identifier` (lines 173-176). -/
def extract_series_id_from_identifier (s : String) : Option String :=
  matchVPRSIdentifier s.data

/-- `re.match(r'VPRS(\d+)/', entity_id)` on the character list. -/
def matchVPRSEntity : List Char → Option String
  | 'V' :: 'P' :: 'R' :: 'S' :: rest =>
    if rest.takeWhile Char.isDigit ≠ [] ∧
        (rest.dropWhile Char.isDigit).take 1 = ['/'] then
      some (String.mk (rest.takeWhile Char.isDigit))
    else none
  | _ => none

/-- `extract_series_id_from_entity_id` (lines 167-170). -/
def extract_series_id_from_entity_id (s : String) : Option String :=
  matchVPRSEntity s.data

/-- Python `int(str)`: optional sign followed by digits (whitespace
around the number is stripped); `none` models `ValueError`. -/
def parseIntChars : List Char → Option Int
  | [] => none
  | '-' :: ds =>
    if ds ≠ [] ∧ ds.all Char.isDigit then some (-(digitsToNat ds : Int))
    else none
  | '+' :: ds =>
    if ds ≠ [] ∧ ds.all Char.isDigit then some ((digitsToNat ds : Int))
    else none
  | ds =>
    if ds.all Char.isDigit then some ((digitsToNat ds : Int)) else none

def pyIntOfString (s : String) : Option Int :=
  parseIntChars
    (((s.data.dropWhile Char.isWhitespace).reverse.dropWhile
        Char.isWhitespace).reverse)

/-- `int(x)` on a series key: `int(None)` raises `TypeError`,
`int(nonNumeric)` raises `ValueError`; both are modelled as `none`
(the callers noted below let the exception escape). -/
def strToInt : Option String → Option Int
  | none => none
  | some s => pyIntOfString s

/-- `agency_sort_key` (lines 271-273): `re.search(r'VA(\d+)', id)`,
`none` standing for `float('inf')`. -/
def searchVA : List Char → Option Nat
  | [] => none
  | c :: cs =>
    match c, cs with
    | 'V', 'A' :: rest =>
      if rest.takeWhile Char.isDigit ≠ [] then
        some (digitsToNat (rest.takeWhile Char.isDigit))
      else searchVA cs
    | _, _ => searchVA cs

def agency_sort_key (aid : String) : Option Nat := searchVA aid.data

/-- Order with `none` as `float('inf')`. -/
def leKey : Option Int → Option Int → Bool
  | none, none => true
  | none, some _ => false
  | some _, none => true
  | some a, some b => decide (a ≤ b)

/-- Order with `none` as `float('inf')`. -/
def leVA : Option Nat → Option Nat → Bool
  | none, none => true
  | none, some _ => false
  | some _, none => true
  | some a, some b => decide (a ≤ b)

/-- The days-to-year part of `datetime.fromtimestamp(t, timezone.utc)`
(proleptic Gregorian calendar, era decomposition). -/
def civilYear (t : Int) : Int :=
  let days := Int.fdiv t 86400
  let z := days + 719468
  let era := Int.fdiv z 146097
  let doe := z - era * 146097
  let yoe := Int.fdiv
    (doe - Int.fdiv doe 1460 + Int.fdiv doe 36524 - Int.fdiv doe 146096) 365
  let y := yoe + era * 400
  let doy := doe - (365 * yoe + Int.fdiv yoe 4 - Int.fdiv yoe 100)
  let mp := Int.fdiv (5 * doy + 2) 153
  let m := if mp < 10 then mp + 3 else mp - 9
  if m ≤ 2 then y + 1 else y

/-- First and last second of `datetime`'s representable range
(years 1..9999). -/
def MIN_TIMESTAMP : Int := -62135596800

def MAX_TIMESTAMP : Int := 253402300799

/-- `datetime.fromtimestamp(t, tz=timezone.utc).year`; out-of-range
timestamps raise (`OverflowError`/`ValueError`), modelled as `none`. -/
def yearOfTimestamp (t : Int) : Option Int :=
  if MIN_TIMESTAMP ≤ t ∧ t ≤ MAX_TIMESTAMP then some (civilYear t)
  else none

def yearStr (y : Int) : String := toString y

def defaultSeriesStats : SeriesStats := {}

def defaultAgencyStats : AgencyStats := {}

/-- `obj.get('category', 'Unknown')` (line 181). -/
def categoryOf (o : Obj) : String := o.category.getD "Unknown"

/-- Series-id derivation (lines 192-201).  A relatedEntity with a
missing `_id` raises `TypeError` inside `re.match` — the error
propagates to the generic handler of `process_json_stream`. -/
def seriesKeyOf (o : Obj) : Except Unit (Option String) :=
  if categoryOf o = "Consignment" then
    .ok (match o.identifier with
         | some idv =>
           if idv ≠ "" then extract_series_id_from_identifier idv
           else some "Unknown"
         | none => some "Unknown")
  else if categoryOf o = "relatedEntity" then
    match o.entityId with
    | some e => .ok (extract_series_id_from_entity_id e)
    | none => .error ()
  else .ok (some (o.series_id.getD "Unknown"))

/-- Line 183: `stats['category'][category] += 1`. -/
def stage_category (o : Obj) (s : Stats) : Stats :=
  { s with category := s.category ++ [categoryOf o] }

/-- Lines 185-190: the Agency branch (note the early return — no
series or year attribution happens for Agency records). -/
def stage_agency (o : Obj) (s : Stats) : Stats :=
  let aid := String.mk ((o.identifier.getD "").data.filter (fun c => c ≠ ' '))
  if aid ≠ "" then
    { s with agencies := (updA s.agencies aid defaultAgencyStats
        (fun a => { a with title := o.title.getD "" })) }
  else s

/-- Lines 203-215: year attribution.  A convertible timestamp
increments the global year bucket and, unless the category is
`Series`, the owning series' bucket; a failing conversion increments
only the global `Invalid` bucket. -/
def stage_year (o : Obj) (sk : Option String) (s : Stats) : Stats :=
  match o.timestamp with
  | none => s
  | some none => { s with year := s.year ++ ["Invalid"] }
  | some (some t) =>
    match yearOfTimestamp t with
    | none => { s with year := s.year ++ ["Invalid"] }
    | some y =>
      if categoryOf o ≠ "Series" then
        { s with year := s.year ++ [yearStr y],
                 series := (updA s.series sk defaultSeriesStats
                   (fun st => { st with years := st.years ++ [yearStr y] })) }
      else { s with year := s.year ++ [yearStr y] }

/-- Lines 217-237: per-category series counters; binding
`series_stats = stats['series'][series_id]` creates the entry even
when nothing else is incremented; an `Item` whose `barcode` equals its
`box_barcode` (two absent fields compare equal) is also a unit. -/
def stage_series (o : Obj) (sk : Option String) (s : Stats) : Stats :=
  let s := { s with series := updA s.series sk defaultSeriesStats id }
  let s :=
    if categoryOf o = "Consignment" then
      { s with series := (updA s.series sk defaultSeriesStats
          (fun st => { st with consignments := st.consignments + 1 })) }
    else if categoryOf o = "Image" then
      { s with series := (updA s.series sk defaultSeriesStats
          (fun st => { st with images := st.images + 1 })) }
    else if categoryOf o = "Item" then
      let s := { s with series := (updA s.series sk defaultSeriesStats
          (fun st => { st with items := st.items + 1 })) }
      if o.barcode = o.box_barcode then
        { s with series := (updA s.series sk defaultSeriesStats
            (fun st => { st with units := st.units + 1 })),
                 units := s.units + 1 }
      else s
    else if categoryOf o = "relatedEntity" then
      { s with series := (updA s.series sk defaultSeriesStats
          (fun st => { st with related_entities := st.related_entities + 1 })) }
    else if categoryOf o = "Series" then
      { s with series := (updA s.series sk defaultSeriesStats
          (fun st => { st with title := o.title.getD "" })) }
    else s
  if o.iiifManifest then
    { s with series := (updA s.series sk defaultSeriesStats
        (fun st => { st with iiif_manifests := st.iiif_manifests + 1 })),
             iiif_manifests := s.iiif_manifests + 1 }
  else s

/-- One iteration of the agency loop at lines 246-250: create the
agency entry, update its title positionally from `agencies.titles`,
and add the record's series key to its series set. -/
def linkStep (o : Obj) (sk : Option String) (s : Stats)
    (p : Nat × String) : Stats :=
  { s with agencies := (updA s.agencies p.2 defaultAgencyStats
      (fun a =>
        let a := match o.agenciesTitles.get? p.1 with
                 | some tl => { a with title := tl }
                 | none => a
        { a with series := insSet a.series sk })) }

/-- Lines 240-250: cross-link the record's series and agencies, and
update agency titles positionally. -/
def stage_agencyLinks (o : Obj) (sk : Option String) (s : Stats) : Stats :=
  let s :=
    if o.agenciesIds ≠ [] then
      { s with series := (updA s.series sk defaultSeriesStats
          (fun st => { st with agencies := unionSet st.agencies o.agenciesIds })) }
    else s
  (o.agenciesIds.enum).foldl (linkStep o sk) s

/-- `process_object` (lines 179-250). -/
def process_object (o : Obj) (s : Stats) : Except Unit Stats :=
  let s1 := stage_category o s
  if categoryOf o = "Agency" then .ok (stage_agency o s1)
  else
    match seriesKeyOf o with
    | .error e => .error e
    | .ok sk => .ok (stage_agencyLinks o sk (stage_series o sk
        (stage_year o sk s1)))

/-- The record loop of `process_json_stream` (lines 119-141):
`stats['objects']` is incremented after each processed record. -/
def processStream : List Obj → Stats → Except Unit Stats
  | [], s => .ok s
  | o :: rest, s =>
    match process_object o s with
    | .ok s' => processStream rest { s' with objects := s'.objects + 1 }
    | .error e => .error e

def initStats : Stats := {}

/-! ### Report assembly (`print_stats_json`, lines 261-355) -/

/-- One `Counter` increment folded into the `(key, count)` view. -/
def bumpCount : List (String × Nat) → String → List (String × Nat)
  | [], k => [(k, 1)]
  | (k', n) :: rest, k =>
    if k' = k then (k', n + 1) :: rest else (k', n) :: bumpCount rest k

/-- The `(key, count)` view of an event-list `Counter`. -/
def bucketCounts (events : List String) : List (String × Nat) :=
  events.foldl bumpCount []

/-- `dict(sorted(counter.items()))`. -/
def bucketSorted (events : List String) : List (String × Nat) :=
  List.insertionSort (fun a b => a.1 ≤ b.1) (bucketCounts events)

structure Overall where
  categories : List (String × Nat)
  iiif_manifests : Nat
  objects : Nat
  units : Nat
  years : List (String × Nat)
deriving DecidableEq

structure SeriesEntry where
  id : Option String
  title : String
  agencies : List String
  consignments : Nat
  iiif_manifests : Nat
  images : Nat
  items : Nat
  related_entities : Nat
  units : Nat
  years : List (String × Nat)
deriving DecidableEq

structure AgencyEntry where
  id : String
  title : String
  consignments : Nat
  iiif_manifests : Nat
  images : Nat
  items : Nat
  series : List (Option String)
  units : Nat
  years : List (String × Nat)
deriving DecidableEq

structure Report where
  overall : Overall
  agencies : List AgencyEntry
  series : List SeriesEntry
deriving DecidableEq

/-- One entry of the `series` listing (lines 288-301). -/
def seriesEntryOf (p : Option String × SeriesStats) : SeriesEntry :=
  { id := p.1, title := p.2.title,
    agencies := List.insertionSort
      (fun a b => leVA (agency_sort_key a) (agency_sort_key b) = true)
      p.2.agencies,
    consignments := p.2.consignments, iiif_manifests := p.2.iiif_manifests,
    images := p.2.images, items := p.2.items,
    related_entities := p.2.related_entities, units := p.2.units,
    years := bucketSorted p.2.years }

/-- Lines 310-318: before printing, each agency's counters absorb the
counters of every series cross-linked to it (`Counter.update` adds
year counts); a linked series id absent from the accumulator is
skipped by the `.get` guard. -/
def accumulateAgency (seriesMap : List (Option String × SeriesStats))
    (ast : AgencyStats) : AgencyStats :=
  ast.series.foldl
    (fun acc sid =>
      match getA seriesMap sid with
      | some sst =>
        { acc with consignments := acc.consignments + sst.consignments,
                   iiif_manifests := acc.iiif_manifests + sst.iiif_manifests,
                   images := acc.images + sst.images,
                   items := acc.items + sst.items,
                   units := acc.units + sst.units,
                   years := acc.years ++ sst.years }
      | none => acc)
    ast

/-- `sorted(agency_stats['series'], key=int)` (line 327): `int` raises
`TypeError` on a `None` key and `ValueError` on a non-numeric one;
either propagates out of `print_stats_json`. -/
def sortSeriesByInt (l : List (Option String)) :
    Except Unit (List (Option String)) :=
  if l.all (fun sid => (strToInt sid).isSome) then
    .ok (List.insertionSort
      (fun a b => leKey (strToInt a) (strToInt b) = true) l)
  else .error ()

/-- One entry of the `agencies` listing (lines 309-331). -/
def agencyEntryOf (seriesMap : List (Option String × SeriesStats))
    (p : String × AgencyStats) : Except Unit AgencyEntry :=
  match sortSeriesByInt (accumulateAgency seriesMap p.2).series with
  | .ok sorted => .ok
      { id := p.1, title := (accumulateAgency seriesMap p.2).title,
        consignments := (accumulateAgency seriesMap p.2).consignments,
        iiif_manifests := (accumulateAgency seriesMap p.2).iiif_manifests,
        images := (accumulateAgency seriesMap p.2).images,
        items := (accumulateAgency seriesMap p.2).items,
        series := sorted,
        units := (accumulateAgency seriesMap p.2).units,
        years := bucketSorted (accumulateAgency seriesMap p.2).years }
  | .error e => .error e

/-- The agency loop of `print_stats_json`; the first exception aborts
the whole report. -/
def agencyEntries (seriesMap : List (Option String × SeriesStats)) :
    List (String × AgencyStats) → Except Unit (List AgencyEntry)
  | [] => .ok []
  | p :: rest =>
    match agencyEntryOf seriesMap p with
    | .ok e =>
      match agencyEntries seriesMap rest with
      | .ok es => .ok (e :: es)
      | .error er => .error er
    | .error er => .error er

/-- `print_stats_json` (lines 261-355): overall block, series listing
(Unknown/None keys filtered, numeric sort with non-numeric last),
agency listing (VA-number sort), assembled only if no entry raises. -/
def print_stats_json (s : Stats) : Except Unit Report :=
  match agencyEntries s.series
      (List.insertionSort
        (fun a b => leVA (agency_sort_key a.1) (agency_sort_key b.1) = true)
        s.agencies) with
  | .ok ags => .ok
      { overall := { categories := bucketSorted s.category,
                     iiif_manifests := s.iiif_manifests,
                     objects := s.objects,
                     units := s.units,
                     years := bucketSorted s.year },
        agencies := ags,
        series := (List.insertionSort
          (fun a b => leKey (strToInt a.1) (strToInt b.1) = true)
          (s.series.filter
            (fun p => decide (p.1 ≠ none ∧ p.1 ≠ some "Unknown")))).map
          seriesEntryOf }
  | .error e => .error e

/-- `process_json_stream` end to end (lines 80-164): stream the
records, then print; every exception lands in the generic handler and
suppresses the report. -/
def run_stats (objs : List Obj) : Option Report :=
  match processStream objs initStats with
  | .ok s => (print_stats_json s).toOption
  | .error _ => none

/-! ### Association-list and fold lemmas -/

theorem getA_setA_self [DecidableEq κ] (m : List (κ × ν)) (k : κ) (v : ν) :
    getA (setA m k v) k = some v := by
  induction m with
  | nil => simp [getA, setA]
  | cons p rest ih =>
    by_cases hk : p.1 = k
    · simp [getA, setA, hk]
    · simp [getA, setA, hk, ih]

theorem getA_setA_other [DecidableEq κ] (m : List (κ × ν)) (k k' : κ)
    (v : ν) (h : k' ≠ k) : getA (setA m k v) k' = getA m k' := by
  induction m with
  | nil =>
    simp only [setA, getA]
    rw [if_neg (fun he => h he.symm)]
  | cons p rest ih =>
    by_cases hk : p.1 = k
    · simp only [setA, if_pos hk, getA]
      rw [if_neg (fun he => h he.symm),
        if_neg (fun he => h (he.symm.trans hk))]
    · simp only [setA, if_neg hk, getA]
      split
      · rfl
      · exact ih

theorem getA_updA_self [DecidableEq κ] (m : List (κ × ν)) (k : κ) (d : ν)
    (f : ν → ν) : getA (updA m k d f) k = some (f ((getA m k).getD d)) := by
  rw [updA, getA_setA_self]

theorem getA_updA_other [DecidableEq κ] (m : List (κ × ν)) (k k' : κ)
    (d : ν) (f : ν → ν) (h : k' ≠ k) :
    getA (updA m k d f) k' = getA m k' := by
  rw [updA, getA_setA_other _ _ _ _ h]

theorem foldl_invariant {α β : Type _} (g : α → β → α) (P : α → Prop)
    (hg : ∀ a b, P a → P (g a b)) :
    ∀ (l : List β) (a : α), P a → P (l.foldl g a) := by
  intro l
  induction l with
  | nil => intro a ha; exact ha
  | cons b bs ih => intro a ha; exact ih (g a b) (hg a b ha)

/-! ### Frame lemmas for the stages of `process_object` -/

theorem stage_category_frame (o : Obj) (s : Stats) :
    (stage_category o s).year = s.year ∧
    (stage_category o s).units = s.units ∧
    (stage_category o s).series = s.series ∧
    (stage_category o s).agencies = s.agencies :=
  ⟨rfl, rfl, rfl, rfl⟩

theorem stage_agency_frame (o : Obj) (s : Stats) :
    (stage_agency o s).year = s.year ∧
    (stage_agency o s).units = s.units ∧
    (stage_agency o s).series = s.series := by
  simp only [stage_agency]
  split <;> exact ⟨rfl, rfl, rfl⟩

theorem stage_year_frame (o : Obj) (sk : Option String) (s : Stats) :
    (stage_year o sk s).units = s.units ∧
    (stage_year o sk s).agencies = s.agencies ∧
    (stage_year o sk s).year.length =
      s.year.length + (if o.timestamp.isSome then 1 else 0) ∧
    (∀ k, ((getA (stage_year o sk s).series k).getD defaultSeriesStats).units
      = ((getA s.series k).getD defaultSeriesStats).units) := by
  unfold stage_year
  cases hts : o.timestamp with
  | none => simp
  | some ts =>
    cases ts with
    | none => simp
    | some t =>
      dsimp only
      cases hy : yearOfTimestamp t with
      | none => simp
      | some y =>
        dsimp only
        split
        · refine ⟨rfl, rfl, by simp, ?_⟩
          intro k
          by_cases hk : k = sk
          · subst hk
            simp [getA_updA_self]
          · simp [getA_updA_other _ _ _ _ _ hk]
        · simp

theorem stage_series_frame (o : Obj) (sk : Option String) (s : Stats) :
    (stage_series o sk s).year = s.year ∧
    (stage_series o sk s).agencies = s.agencies := by
  unfold stage_series
  split
  · split <;> exact ⟨rfl, rfl⟩
  · split
    · split <;> exact ⟨rfl, rfl⟩
    · split
      · split
        · split <;> exact ⟨rfl, rfl⟩
        · split <;> exact ⟨rfl, rfl⟩
      · split
        · split <;> exact ⟨rfl, rfl⟩
        · split
          · split <;> exact ⟨rfl, rfl⟩
          · split <;> exact ⟨rfl, rfl⟩

theorem stage_agencyLinks_frame (o : Obj) (sk : Option String) (s : Stats) :
    (stage_agencyLinks o sk s).year = s.year ∧
    (stage_agencyLinks o sk s).units = s.units ∧
    (∀ k, ((getA (stage_agencyLinks o sk s).series k).getD
        defaultSeriesStats).units
      = ((getA s.series k).getD defaultSeriesStats).units) := by
  unfold stage_agencyLinks
  have hfold : ∀ (t : Stats),
      ((o.agenciesIds.enum).foldl (linkStep o sk) t).year = t.year ∧
      ((o.agenciesIds.enum).foldl (linkStep o sk) t).units = t.units ∧
      ((o.agenciesIds.enum).foldl (linkStep o sk) t).series = t.series := by
    intro t
    refine foldl_invariant _
      (fun u => u.year = t.year ∧ u.units = t.units ∧ u.series = t.series)
      ?_ _ t ⟨rfl, rfl, rfl⟩
    intro a b hab
    exact ⟨hab.1, hab.2.1, hab.2.2⟩
  split
  · next hne =>
    refine ⟨(hfold _).1, (hfold _).2.1, ?_⟩
    intro k
    rw [(hfold _).2.2]
    by_cases hk : k = sk
    · subst hk; simp [getA_updA_self]
    · simp [getA_updA_other _ _ _ _ _ hk]
  · next hemp =>
    refine ⟨(hfold _).1, (hfold _).2.1, fun k => by rw [(hfold _).2.2]⟩

/-- The `Item` branch of `stage_series` when the barcode equality
holds: both the series' and the global unit counters advance by
one. -/
theorem stage_series_item (o : Obj) (sk : Option String) (s : Stats)
    (hcat : categoryOf o = "Item") (hbar : o.barcode = o.box_barcode) :
    (stage_series o sk s).units = s.units + 1 ∧
    ((getA (stage_series o sk s).series sk).getD defaultSeriesStats).units
      = ((getA s.series sk).getD defaultSeriesStats).units + 1 := by
  have hnc : ("Item" = "Consignment") = False := by simp
  have hni : ("Item" = "Image") = False := by simp
  simp only [stage_series, hcat, hnc, hni, eq_self_iff_true, if_true,
    if_false, hbar]
  split
  · constructor <;> simp [getA_updA_self]
  · constructor <;> simp [getA_updA_self]

/-- C9: an `Item` record carrying neither a `barcode` nor a
`box_barcode` field satisfies the `obj.get('barcode') ==
obj.get('box_barcode')` check (both sides are `None`), so it is
counted as a unit: its series' unit counter and the global unit
counter both advance by one. -/
theorem item_missing_barcodes_is_unit (o : Obj) (s s' : Stats)
    (hcat : categoryOf o = "Item") (hb : o.barcode = none)
    (hbb : o.box_barcode = none)
    (h : process_object o s = .ok s') :
    s'.units = s.units + 1 ∧
    ((getA s'.series (some (o.series_id.getD "Unknown"))).getD
        defaultSeriesStats).units
      = ((getA s.series (some (o.series_id.getD "Unknown"))).getD
        defaultSeriesStats).units + 1 := by
  have hsk : seriesKeyOf o = .ok (some (o.series_id.getD "Unknown")) := by
    unfold seriesKeyOf
    rw [hcat]
    rw [if_neg (by decide), if_neg (by decide)]
  unfold process_object at h
  rw [if_neg (by rw [hcat]; decide), hsk] at h
  have h' : stage_agencyLinks o (some (o.series_id.getD "Unknown"))
      (stage_series o (some (o.series_id.getD "Unknown"))
        (stage_year o (some (o.series_id.getD "Unknown"))
          (stage_category o s))) = s' := Except.ok.inj h
  subst h'
  have hbar : o.barcode = o.box_barcode := by rw [hb, hbb]
  constructor
  · rw [(stage_agencyLinks_frame _ _ _).2.1,
      (stage_series_item _ _ _ hcat hbar).1,
      (stage_year_frame _ _ _).1]
    rfl
  · rw [(stage_agencyLinks_frame _ _ _).2.2 _,
      (stage_series_item _ _ _ hcat hbar).2,
      (stage_year_frame _ _ _).2.2.2 _]
    rfl

/-- A concrete barcode-less Item record. -/
def itemObj : Obj := { category := some "Item", series_id := some "5" }

/-- The accumulator after processing `itemObj` from scratch. -/
def itemObjOut : Stats :=
  match process_object itemObj initStats with
  | .ok s => s
  | .error _ => initStats

/-- C9 witness: a concrete barcode-less `Item` processed from the
empty accumulator. -/
theorem item_missing_barcodes_is_unit_witness :
    (itemObjOut.units = initStats.units + 1) ∧
    ((getA itemObjOut.series (some "5")).getD defaultSeriesStats).units
      = ((getA initStats.series (some "5")).getD defaultSeriesStats).units
        + 1 :=
  item_missing_barcodes_is_unit itemObj initStats itemObjOut rfl rfl rfl rfl

/-! ### Claim C7: the global year histogram -/

/-- Every processed record advances the global year event list by one
exactly when it bears a timestamp field and is not an Agency record
(Agency records return at line 190, before the year attribution at
lines 203-215). -/
theorem process_object_year_length (o : Obj) (s s' : Stats)
    (h : process_object o s = .ok s') :
    s'.year.length = s.year.length +
      (if o.timestamp.isSome ∧ categoryOf o ≠ "Agency" then 1 else 0) := by
  unfold process_object at h
  split at h
  · next hag =>
    have h' := Except.ok.inj h
    subst h'
    rw [(stage_agency_frame _ _).1]
    simp [hag, stage_category]
  · next hag =>
    split at h
    · simp at h
    · next sk heq =>
      have h' := Except.ok.inj h
      subst h'
      rw [(stage_agencyLinks_frame _ _ _).1, (stage_series_frame _ _ _).1,
        (stage_year_frame _ _ _).2.2.1]
      have : (stage_category o s).year = s.year := rfl
      rw [this]
      simp [hag]

/-- Over a whole stream, the global year event count equals the number
of non-Agency records bearing a timestamp. -/
theorem processStream_year_length :
    ∀ (objs : List Obj) (s s' : Stats),
      processStream objs s = .ok s' →
      s'.year.length = s.year.length +
        objs.countP (fun o => o.timestamp.isSome &&
          !(categoryOf o == "Agency")) := by
  intro objs
  induction objs with
  | nil =>
    intro s s' h
    have := Except.ok.inj h
    subst this
    simp
  | cons o rest ih =>
    intro s s' h
    rw [processStream] at h
    split at h
    · next s1 heq =>
      have hstep := process_object_year_length o s s1 heq
      have hrest := ih _ _ h
      have hobj : ({ s1 with objects := s1.objects + 1 } : Stats).year
          = s1.year := rfl
      rw [hobj] at hrest
      rw [hrest, List.countP_cons, hstep]
      by_cases hp : o.timestamp.isSome ∧ categoryOf o ≠ "Agency"
      · have hb : (o.timestamp.isSome && !(categoryOf o == "Agency")) = true := by
          simp only [Bool.and_eq_true, Bool.not_eq_true', beq_eq_false_iff_ne]
          exact hp
        rw [if_pos hp, if_pos hb]
        omega
      · have hb : (o.timestamp.isSome && !(categoryOf o == "Agency")) = false := by
          simp only [Bool.and_eq_false_iff, Bool.not_eq_false', beq_iff_eq]
          by_cases h1 : o.timestamp.isSome = true
          · right
            by_contra h2
            exact hp ⟨h1, h2⟩
          · exact Or.inl (by simpa using h1)
        rw [if_neg hp, hb]
        simp
    · simp at h

theorem sum_bumpCount (m : List (String × Nat)) (k : String) :
    ((bumpCount m k).map Prod.snd).sum = (m.map Prod.snd).sum + 1 := by
  induction m with
  | nil => simp [bumpCount]
  | cons p rest ih =>
    by_cases hk : p.1 = k
    · simp [bumpCount, hk]
      omega
    · simp [bumpCount, hk, ih]
      omega

theorem sum_bucketCounts_aux :
    ∀ (l : List String) (m : List (String × Nat)),
      ((l.foldl bumpCount m).map Prod.snd).sum
        = (m.map Prod.snd).sum + l.length := by
  intro l
  induction l with
  | nil => intro m; simp
  | cons k ks ih =>
    intro m
    rw [List.foldl_cons, ih, sum_bumpCount]
    simp
    omega

/-- The displayed year histogram's bucket values sum to the number of
year increment events. -/
theorem sum_bucketSorted (l : List String) :
    ((bucketSorted l).map Prod.snd).sum = l.length := by
  have hperm := List.perm_insertionSort
    (fun a b : String × Nat => a.1 ≤ b.1) (bucketCounts l)
  rw [bucketSorted, (hperm.map Prod.snd).sum_eq]
  simpa using sum_bucketCounts_aux l []

/-- The `overall.years` block of a produced report is the sorted view
of the accumulated year events. -/
theorem print_stats_json_overall_years (s : Stats) (rep : Report)
    (h : print_stats_json s = .ok rep) :
    rep.overall.years = bucketSorted s.year := by
  unfold print_stats_json at h
  split at h
  · have h' := Except.ok.inj h
    subst h'
    rfl
  · simp at h

/-- C7 (amended): when the aggregation completes and prints a report,
the sum over the global year histogram (including the `Invalid`
bucket) equals the number of records that both carry a timestamp field
and are not of category `Agency`; Agency records return early and
contribute to no year bucket. -/
theorem year_histogram_total (objs : List Obj) (v : Nat)
    (h : (run_stats objs).map
        (fun r => ((r.overall.years).map Prod.snd).sum) = some v) :
    v = objs.countP (fun o => o.timestamp.isSome &&
          !(categoryOf o == "Agency")) := by
  unfold run_stats at h
  split at h
  · next s heq =>
    cases hp : print_stats_json s with
    | error e => rw [hp] at h; simp [Except.toOption] at h
    | ok rep =>
      rw [hp] at h
      simp only [Except.toOption, Option.map_some] at h
      have hv := Option.some.inj h
      rw [← hv]
      show ((rep.overall.years).map Prod.snd).sum = _
      rw [print_stats_json_overall_years s rep hp, sum_bucketSorted]
      have := processStream_year_length objs initStats s heq
      simpa [initStats] using this
  · simp at h

/-- A concrete Agency record bearing a timestamp: it is counted by
"records carrying a timestamp field" but increments no year bucket. -/
def agencyTsObj : Obj :=
  { category := some "Agency", identifier := some "VA 1",
    timestamp := some (some 0), title := some "T" }

/-- C7 counterexample: on a stream holding one Agency record with a
timestamp, the report's global year histogram sums to 0 while one
record carries a timestamp field — the claim's equality, category
notwithstanding, fails. -/
theorem year_histogram_total_counterexample :
    (run_stats [agencyTsObj]).map
        (fun r => ((r.overall.years).map Prod.snd).sum) = some 0 ∧
    [agencyTsObj].countP (fun o => o.timestamp.isSome) = 1 ∧
    (run_stats [agencyTsObj]).map
        (fun r => ((r.overall.years).map Prod.snd).sum) ≠
      some ([agencyTsObj].countP (fun o => o.timestamp.isSome)) := by
  refine ⟨rfl, rfl, by decide⟩

/-- A concrete Item with an unparseable timestamp (lands in the
`Invalid` bucket). -/
def invalidTsItem : Obj :=
  { category := some "Item", series_id := some "5",
    timestamp := some none }

/-- C7 witness: `year_histogram_total` at a one-record stream whose
record's timestamp fails conversion. -/
theorem year_histogram_total_witness :
    (1 : Nat) = [invalidTsItem].countP (fun o => o.timestamp.isSome &&
      !(categoryOf o == "Agency")) :=
  year_histogram_total [invalidTsItem] 1 rfl

/-! ### Claim C10: non-numeric series keys poison the agency report -/

/-- Agency `aid` is cross-linked to series key `sid` in the
accumulator. -/
def crossLinked (aid : String) (sid : Option String) (s : Stats) : Prop :=
  ∃ ast, getA s.agencies aid = some ast ∧ sid ∈ ast.series

theorem mem_insSet_self [DecidableEq β] (s : List β) (x : β) :
    x ∈ insSet s x := by
  unfold insSet
  split
  · assumption
  · simp

theorem mem_insSet_of_mem [DecidableEq β] (s : List β) (x y : β)
    (h : y ∈ s) : y ∈ insSet s x := by
  unfold insSet
  split
  · exact h
  · simp [h]

theorem crossLinked_updA_pres (aid : String) (sid : Option String)
    (m : List (String × AgencyStats)) (k : String)
    (f : AgencyStats → AgencyStats)
    (hf : ∀ a, sid ∈ a.series → sid ∈ (f a).series)
    (h : ∃ ast, getA m aid = some ast ∧ sid ∈ ast.series) :
    ∃ ast, getA (updA m k defaultAgencyStats f) aid = some ast ∧
      sid ∈ ast.series := by
  obtain ⟨ast, hga, hmem⟩ := h
  by_cases hk : aid = k
  · subst hk
    refine ⟨f ((getA m aid).getD defaultAgencyStats),
      getA_updA_self _ _ _ _, ?_⟩
    rw [hga]
    exact hf ast hmem
  · exact ⟨ast, by rw [getA_updA_other _ _ _ _ _ hk]; exact hga, hmem⟩

theorem linkStep_crossLink_pres (o : Obj) (sk : Option String)
    (t : Stats) (p : Nat × String) (aid : String) (sid : Option String)
    (h : crossLinked aid sid t) :
    crossLinked aid sid (linkStep o sk t p) := by
  unfold linkStep crossLinked
  dsimp only
  apply crossLinked_updA_pres
  · intro a hmem
    cases o.agenciesTitles.get? p.1 <;>
      exact mem_insSet_of_mem _ _ _ hmem
  · exact h

theorem linkStep_crossLink_self (o : Obj) (sk : Option String)
    (t : Stats) (p : Nat × String) :
    crossLinked p.2 sk (linkStep o sk t p) := by
  unfold linkStep crossLinked
  dsimp only
  refine ⟨_, getA_updA_self _ _ _ _, ?_⟩
  cases o.agenciesTitles.get? p.1 <;> exact mem_insSet_self _ _

theorem fold_crossLink_pres (o : Obj) (sk : Option String)
    (l : List (Nat × String)) (t : Stats) (aid : String)
    (sid : Option String) (h : crossLinked aid sid t) :
    crossLinked aid sid (l.foldl (linkStep o sk) t) :=
  foldl_invariant _ (crossLinked aid sid)
    (fun a b hab => linkStep_crossLink_pres o sk a b aid sid hab) l t h

theorem fold_crossLink (o : Obj) (sk : Option String) :
    ∀ (l : List (Nat × String)) (t : Stats) (aid : String),
      aid ∈ l.map Prod.snd →
      crossLinked aid sk (l.foldl (linkStep o sk) t) := by
  intro l
  induction l with
  | nil => intro t aid h; simp at h
  | cons p ps ih =>
    intro t aid h
    rw [List.foldl_cons]
    rcases List.mem_cons.1 (by simpa using h :
        aid ∈ p.2 :: ps.map Prod.snd) with heq | hmem
    · subst heq
      exact fold_crossLink_pres o sk ps _ _ _
        (linkStep_crossLink_self o sk t p)
    · exact ih _ aid hmem

/-- Processing a non-Agency record with a nonempty `agencies.ids`
cross-links each of those agencies to the record's series key. -/
theorem stage_agencyLinks_crossLink (o : Obj) (sk : Option String)
    (s : Stats) :
    ∀ aid ∈ o.agenciesIds, crossLinked aid sk (stage_agencyLinks o sk s) := by
  intro aid ha
  unfold stage_agencyLinks
  dsimp only
  apply fold_crossLink
  rw [List.enum_map_snd]
  exact ha

theorem stage_agencyLinks_crossLink_pres (o : Obj) (sk : Option String)
    (s : Stats) (aid : String) (sid : Option String)
    (h : crossLinked aid sid s) :
    crossLinked aid sid (stage_agencyLinks o sk s) := by
  unfold stage_agencyLinks
  dsimp only
  apply fold_crossLink_pres
  split
  · exact h
  · exact h

/-- `process_object` never removes a cross-link. -/
theorem process_object_crossLink_pres (o' : Obj) (t t' : Stats)
    (aid : String) (sid : Option String)
    (h : process_object o' t = .ok t') (hcl : crossLinked aid sid t) :
    crossLinked aid sid t' := by
  have hcat : crossLinked aid sid (stage_category o' t) := hcl
  unfold process_object at h
  split at h
  · have h' := Except.ok.inj h
    subst h'
    unfold stage_agency
    dsimp only
    split
    · unfold crossLinked
      dsimp only
      exact crossLinked_updA_pres _ _ _ _ _ (fun a hm => hm) hcat
    · exact hcat
  · split at h
    · simp at h
    · next sk heq =>
      have h' := Except.ok.inj h
      subst h'
      apply stage_agencyLinks_crossLink_pres
      have hyear : crossLinked aid sid (stage_year o' sk (stage_category o' t)) := by
        unfold crossLinked
        rw [(stage_year_frame o' sk (stage_category o' t)).2.1]
        exact hcat
      unfold crossLinked
      rw [(stage_series_frame o' sk _).2]
      exact hyear

theorem processStream_crossLink_pres :
    ∀ (objs : List Obj) (t t' : Stats) (aid : String) (sid : Option String),
      processStream objs t = .ok t' → crossLinked aid sid t →
      crossLinked aid sid t' := by
  intro objs
  induction objs with
  | nil =>
    intro t t' aid sid h hcl
    have := Except.ok.inj h
    subst this
    exact hcl
  | cons o rest ih =>
    intro t t' aid sid h hcl
    rw [processStream] at h
    split at h
    · next t1 heq =>
      have h1 : crossLinked aid sid t1 :=
        process_object_crossLink_pres o t t1 aid sid heq hcl
      exact ih _ _ aid sid h h1
    · simp at h

/-- Any record of the stream with a nonempty `agencies.ids` list
leaves each of those agencies cross-linked to its series key in the
final accumulator. -/
theorem processStream_crossLink (o : Obj) (bad : Option String)
    (hag : ¬ categoryOf o = "Agency") (hsk : seriesKeyOf o = .ok bad) :
    ∀ (objs : List Obj), o ∈ objs →
      ∀ aid ∈ o.agenciesIds, ∀ (t s : Stats),
        processStream objs t = .ok s → crossLinked aid bad s := by
  intro objs
  induction objs with
  | nil => intro ho; simp at ho
  | cons o' rest ih =>
    intro ho aid ha t s h
    rw [processStream] at h
    split at h
    · next t1 heq =>
      rcases List.mem_cons.1 ho with heqo | ho'
      · subst heqo
        have h1 : crossLinked aid bad t1 := by
          unfold process_object at heq
          rw [if_neg hag, hsk] at heq
          have h' := Except.ok.inj heq
          subst h'
          exact stage_agencyLinks_crossLink o bad _ aid ha
        exact processStream_crossLink_pres rest _ _ aid bad h h1
      · exact ih ho' aid ha _ _ h
    · simp at h

theorem getA_some_mem [DecidableEq κ] (m : List (κ × ν)) (k : κ) (v : ν)
    (h : getA m k = some v) : (k, v) ∈ m := by
  induction m with
  | nil => simp [getA] at h
  | cons p rest ih =>
    rw [getA] at h
    split at h
    · next hk =>
      have hv := Option.some.inj h
      have hp : p = (k, v) := by rw [← hk, ← hv]
      rw [← hp]
      exact List.mem_cons_self _ _
    · exact List.mem_cons_of_mem _ (ih h)

theorem accumulateAgency_series
    (sm : List (Option String × SeriesStats)) (a : AgencyStats) :
    (accumulateAgency sm a).series = a.series := by
  unfold accumulateAgency
  refine foldl_invariant _
    (fun x : AgencyStats => x.series = a.series) ?_ _ _ rfl
  intro x sid hx
  cases getA sm sid <;> exact hx

theorem agencyEntryOf_error_of_bad
    (sm : List (Option String × SeriesStats)) (p : String × AgencyStats)
    (sid : Option String) (hmem : sid ∈ p.2.series)
    (hbad : strToInt sid = none) :
    agencyEntryOf sm p = .error () := by
  unfold agencyEntryOf
  have hsort : sortSeriesByInt (accumulateAgency sm p.2).series
      = .error () := by
    unfold sortSeriesByInt
    rw [accumulateAgency_series]
    rw [if_neg (by
      intro hall
      have := (List.all_eq_true.1 hall) sid hmem
      rw [hbad] at this
      simp at this)]
  rw [hsort]

theorem agencyEntries_error (sm : List (Option String × SeriesStats)) :
    ∀ (l : List (String × AgencyStats)) (p : String × AgencyStats),
      p ∈ l → agencyEntryOf sm p = .error () →
      agencyEntries sm l = .error () := by
  intro l
  induction l with
  | nil => intro p hp; simp at hp
  | cons q rest ih =>
    intro p hp herr
    rw [agencyEntries]
    rcases List.mem_cons.1 hp with heq | hmem
    · subst heq
      rw [herr]
    · cases hq : agencyEntryOf sm q with
      | error e =>
        cases e
        rfl
      | ok e =>
        rw [ih p hmem herr]

/-- A series key on which `int()` raises, sitting in some agency's
series set, aborts `print_stats_json` at the `sorted(..., key=int)`
call. -/
theorem print_stats_json_error_of_bad (s : Stats) (aid : String)
    (ast : AgencyStats) (sid : Option String)
    (hga : getA s.agencies aid = some ast) (hmem : sid ∈ ast.series)
    (hbad : strToInt sid = none) :
    print_stats_json s = .error () := by
  unfold print_stats_json
  have hpair : (aid, ast) ∈ s.agencies := getA_some_mem _ _ _ hga
  have hsorted : (aid, ast) ∈ List.insertionSort
      (fun a b => leVA (agency_sort_key a.1) (agency_sort_key b.1) = true)
      s.agencies :=
    ((List.perm_insertionSort _ _).mem_iff).2 hpair
  rw [agencyEntries_error s.series _ (aid, ast) hsorted
    (agencyEntryOf_error_of_bad s.series (aid, ast) sid hmem hbad)]

/-- C10: a record carrying a nonempty `agencies.ids` whose series id
resolves to the `Unknown` sentinel or to no match at all (`None`)
cross-links those agencies to a non-numeric series key; the final
report pass then fails in `sorted(agency_stats['series'], key=int)`,
the generic handler of `process_json_stream` swallows the exception,
and no statistics report is printed. -/
theorem unknown_series_crosslink_kills_report (objs : List Obj)
    (o : Obj) (bad : Option String) (hmem : o ∈ objs)
    (hag : ¬ categoryOf o = "Agency") (hids : o.agenciesIds ≠ [])
    (hsk : seriesKeyOf o = .ok bad) (hbad : strToInt bad = none) :
    (∀ s, processStream objs initStats = .ok s →
      print_stats_json s = .error ()) ∧
    run_stats objs = none := by
  have hmain : ∀ s, processStream objs initStats = .ok s →
      print_stats_json s = .error () := by
    intro s hs
    obtain ⟨aid, haid⟩ := List.exists_mem_of_ne_nil _ hids
    have hcl := processStream_crossLink o bad hag hsk objs hmem aid haid
      initStats s hs
    obtain ⟨ast, hga, hin⟩ := hcl
    exact print_stats_json_error_of_bad s aid ast bad hga hin hbad
  refine ⟨hmain, ?_⟩
  unfold run_stats
  split
  · next s heq => rw [hmain s heq]; rfl
  · rfl

/-- A concrete Item record with an agency link and no `series_id`
field — its series key is the `Unknown` sentinel. -/
def unknownSeriesObj : Obj :=
  { category := some "Item", agenciesIds := ["VA1"] }

/-- C10 witness: the theorem at a concrete one-record stream. -/
theorem unknown_series_crosslink_kills_report_witness :
    (∀ s, processStream [unknownSeriesObj] initStats = .ok s →
      print_stats_json s = .error ()) ∧
    run_stats [unknownSeriesObj] = none :=
  unknown_series_crosslink_kills_report [unknownSeriesObj]
    unknownSeriesObj (some "Unknown") (by simp)
    (by decide) (by decide) rfl rfl

/-! ### Claim C8: agency aggregates are direct counts plus linked
series counts -/

/-- The spec-side sum "the corresponding counts of every series
cross-linked to the agency" (a missing series contributes nothing, as
the code's `.get` guard skips it). -/
def sumLinked (sm : List (Option String × SeriesStats))
    (sids : List (Option String)) (f : SeriesStats → Nat) : Nat :=
  (sids.map (fun sid => match getA sm sid with
    | some st => f st
    | none => 0)).sum

/-- The year events contributed by the linked series. -/
def yearsLinked (sm : List (Option String × SeriesStats))
    (sids : List (Option String)) : List String :=
  (sids.map (fun sid => match getA sm sid with
    | some st => st.years
    | none => [])).flatten

/-- Value of bucket `k` in a `(key, count)` histogram view; robust to
reordering and duplicate keys. -/
def pairSum (m : List (String × Nat)) (k : String) : Nat :=
  ((m.filter (fun p => decide (p.1 = k))).map Prod.snd).sum

/-- The in-place accumulation loop equals the direct counters plus the
linked sums, field by field. -/
theorem accumulateAgency_eq (sm : List (Option String × SeriesStats))
    (a : AgencyStats) :
    accumulateAgency sm a = { a with
      consignments := a.consignments +
        sumLinked sm a.series (fun st => st.consignments),
      iiif_manifests := a.iiif_manifests +
        sumLinked sm a.series (fun st => st.iiif_manifests),
      images := a.images + sumLinked sm a.series (fun st => st.images),
      items := a.items + sumLinked sm a.series (fun st => st.items),
      units := a.units + sumLinked sm a.series (fun st => st.units),
      years := a.years ++ yearsLinked sm a.series } := by
  have key : ∀ (l : List (Option String)) (acc : AgencyStats),
      l.foldl (fun acc sid => match getA sm sid with
        | some sst =>
          { acc with consignments := acc.consignments + sst.consignments,
                     iiif_manifests := acc.iiif_manifests + sst.iiif_manifests,
                     images := acc.images + sst.images,
                     items := acc.items + sst.items,
                     units := acc.units + sst.units,
                     years := acc.years ++ sst.years }
        | none => acc) acc
      = { acc with
          consignments := acc.consignments +
            sumLinked sm l (fun st => st.consignments),
          iiif_manifests := acc.iiif_manifests +
            sumLinked sm l (fun st => st.iiif_manifests),
          images := acc.images + sumLinked sm l (fun st => st.images),
          items := acc.items + sumLinked sm l (fun st => st.items),
          units := acc.units + sumLinked sm l (fun st => st.units),
          years := acc.years ++ yearsLinked sm l } := by
    intro l
    induction l with
    | nil =>
      intro acc
      simp [sumLinked, yearsLinked]
    | cons sid l ih =>
      intro acc
      rw [List.foldl_cons, ih]
      cases hg : getA sm sid with
      | none =>
        simp only [hg, sumLinked, yearsLinked, List.map_cons, List.sum_cons,
          List.flatten_cons, Nat.zero_add, List.nil_append]
      | some sst =>
        simp only [hg, sumLinked, yearsLinked, List.map_cons, List.sum_cons,
          List.flatten_cons]
        simp only [AgencyStats.mk.injEq, true_and, and_true]
        refine ⟨by omega, by omega, by omega, by omega, by omega,
          by simp [List.append_assoc]⟩
  exact key a.series a

theorem pairSum_cons (a : String) (n : Nat) (m : List (String × Nat))
    (y : String) :
    pairSum ((a, n) :: m) y = (if a = y then n else 0) + pairSum m y := by
  unfold pairSum
  rw [List.filter_cons]
  by_cases h : a = y
  · simp [h]
  · simp [h]

theorem pairSum_bumpCount (m : List (String × Nat)) (k y : String) :
    pairSum (bumpCount m k) y = pairSum m y + (if k = y then 1 else 0) := by
  induction m with
  | nil =>
    by_cases hk : k = y <;> simp [bumpCount, pairSum, hk]
  | cons p rest ih =>
    rcases p with ⟨a, n⟩
    rw [bumpCount]
    by_cases hk : a = k
    · rw [if_pos hk, pairSum_cons, pairSum_cons]
      by_cases hy : a = y
      · rw [if_pos hy, if_pos hy, if_pos (hk ▸ hy : k = y)]
        omega
      · rw [if_neg hy, if_neg hy, if_neg (fun hky => hy (hk.symm ▸ hky))]
        omega
    · rw [if_neg hk, pairSum_cons, pairSum_cons, ih]
      omega

theorem pairSum_bucketCounts_aux :
    ∀ (l : List String) (m : List (String × Nat)) (y : String),
      pairSum (l.foldl bumpCount m) y = pairSum m y + l.count y := by
  intro l
  induction l with
  | nil => intro m y; simp
  | cons k ks ih =>
    intro m y
    rw [List.foldl_cons, ih, pairSum_bumpCount, List.count_cons]
    by_cases hk : k = y
    · simp [hk]
      omega
    · simp [hk]

theorem pairSum_perm (m m' : List (String × Nat))
    (h : List.Perm m m') (y : String) : pairSum m y = pairSum m' y := by
  unfold pairSum
  exact ((h.filter _).map Prod.snd).sum_eq

/-- Bucket `y` of the printed histogram counts the `y` events. -/
theorem pairSum_bucketSorted (l : List String) (y : String) :
    pairSum (bucketSorted l) y = l.count y := by
  rw [bucketSorted,
    pairSum_perm _ _ (List.perm_insertionSort _ (bucketCounts l)) y]
  have := pairSum_bucketCounts_aux l [] y
  simpa [pairSum] using this

theorem count_yearsLinked (sm : List (Option String × SeriesStats))
    (sids : List (Option String)) (y : String) :
    (yearsLinked sm sids).count y
      = sumLinked sm sids (fun st => st.years.count y) := by
  unfold yearsLinked sumLinked
  induction sids with
  | nil => simp
  | cons sid rest ih =>
    rw [List.map_cons, List.flatten_cons, List.count_append, List.map_cons,
      List.sum_cons, ih]
    cases hg : getA sm sid <;> simp [hg]

/-! Nodup keys of the agencies map, needed to read entries back. -/

theorem setA_map_fst [DecidableEq κ] (m : List (κ × ν)) (k : κ) (v : ν) :
    (setA m k v).map Prod.fst =
      if k ∈ m.map Prod.fst then m.map Prod.fst
      else m.map Prod.fst ++ [k] := by
  induction m with
  | nil => simp [setA]
  | cons p rest ih =>
    by_cases hk : p.1 = k
    · simp [setA, hk]
    · rw [setA, if_neg hk, List.map_cons, ih, List.map_cons]
      by_cases hm : k ∈ rest.map Prod.fst
      · rw [if_pos hm, if_pos (by simp [hm])]
      · rw [if_neg hm, if_neg (by
          simp only [List.mem_cons]
          rintro (hkp | hkm)
          · exact hk hkp.symm
          · exact hm hkm)]
        simp

theorem updA_nodup_fst [DecidableEq κ] (m : List (κ × ν)) (k : κ)
    (d : ν) (f : ν → ν) (h : (m.map Prod.fst).Nodup) :
    ((updA m k d f).map Prod.fst).Nodup := by
  rw [updA, setA_map_fst]
  split
  · exact h
  · next hnm =>
    rw [List.nodup_append]
    exact ⟨h, List.nodup_singleton _, by
      intro a ha hb
      rw [List.mem_singleton] at hb
      subst hb
      exact hnm ha⟩

theorem process_object_agencies_nodup (o : Obj) (t t' : Stats)
    (h : process_object o t = .ok t')
    (hnd : (t.agencies.map Prod.fst).Nodup) :
    (t'.agencies.map Prod.fst).Nodup := by
  unfold process_object at h
  split at h
  · have h' := Except.ok.inj h
    subst h'
    unfold stage_agency
    dsimp only
    split
    · have hnd' : ((stage_category o t).agencies.map Prod.fst).Nodup := hnd
      dsimp only
      exact updA_nodup_fst _ _ _ _ hnd'
    · exact hnd
  · split at h
    · simp at h
    · next sk heq =>
      have h' := Except.ok.inj h
      subst h'
      have h1 : (stage_year o sk (stage_category o t)).agencies
          = t.agencies := (stage_year_frame o sk (stage_category o t)).2.1
      have h2 : (stage_series o sk
            (stage_year o sk (stage_category o t))).agencies = t.agencies :=
        (stage_series_frame o sk _).2.trans h1
      unfold stage_agencyLinks
      dsimp only
      apply foldl_invariant _
        (fun u : Stats => (u.agencies.map Prod.fst).Nodup)
      · intro a b hab
        unfold linkStep
        dsimp only
        exact updA_nodup_fst _ _ _ _ hab
      · split
        · exact (by rw [h2]; exact hnd :
            ((stage_series o sk (stage_year o sk
              (stage_category o t))).agencies.map Prod.fst).Nodup)
        · exact (by rw [h2]; exact hnd :
            ((stage_series o sk (stage_year o sk
              (stage_category o t))).agencies.map Prod.fst).Nodup)

theorem processStream_agencies_nodup :
    ∀ (objs : List Obj) (t t' : Stats),
      processStream objs t = .ok t' →
      (t.agencies.map Prod.fst).Nodup →
      (t'.agencies.map Prod.fst).Nodup := by
  intro objs
  induction objs with
  | nil =>
    intro t t' h hnd
    have := Except.ok.inj h
    subst this
    exact hnd
  | cons o rest ih =>
    intro t t' h hnd
    rw [processStream] at h
    split at h
    · next t1 heq =>
      exact ih _ _ h (process_object_agencies_nodup o t t1 heq hnd)
    · simp at h

theorem getA_eq_of_mem_nodup [DecidableEq κ] (m : List (κ × ν)) (k : κ)
    (v : ν) (hm : (k, v) ∈ m) (hnd : (m.map Prod.fst).Nodup) :
    getA m k = some v := by
  induction m with
  | nil => simp at hm
  | cons p rest ih =>
    rcases List.mem_cons.1 hm with heq | hmem
    · rw [← heq, getA, if_pos rfl]
    · have hk : k ∈ rest.map Prod.fst :=
        List.mem_map.2 ⟨(k, v), hmem, rfl⟩
      have hne : p.1 ≠ k := by
        intro hpk
        exact (List.nodup_cons.1 (by simpa using hnd)).1 (hpk ▸ hk)
      rw [getA, if_neg hne]
      exact ih hmem (List.nodup_cons.1 (by simpa using hnd)).2

theorem agencyEntries_mem (sm : List (Option String × SeriesStats)) :
    ∀ (l : List (String × AgencyStats)) (out : List AgencyEntry),
      agencyEntries sm l = .ok out →
      ∀ e ∈ out, ∃ p, p ∈ l ∧ agencyEntryOf sm p = .ok e := by
  intro l
  induction l with
  | nil =>
    intro out h e he
    rw [agencyEntries] at h
    have := Except.ok.inj h
    subst this
    simp at he
  | cons q rest ih =>
    intro out h e he
    rw [agencyEntries] at h
    split at h
    · next e0 hq =>
      split at h
      · next es hes =>
        have := Except.ok.inj h
        subst this
        rcases List.mem_cons.1 he with heq | hmem
        · exact ⟨q, List.mem_cons_self _ _, heq ▸ hq⟩
        · obtain ⟨p, hp, hpok⟩ := ih es hes e hmem
          exact ⟨p, List.mem_cons_of_mem _ hp, hpok⟩
      · simp at h
    · simp at h

theorem agencyEntryOf_ok (sm : List (Option String × SeriesStats))
    (p : String × AgencyStats) (e : AgencyEntry)
    (h : agencyEntryOf sm p = .ok e) :
    e.id = p.1 ∧
    e.consignments = (accumulateAgency sm p.2).consignments ∧
    e.iiif_manifests = (accumulateAgency sm p.2).iiif_manifests ∧
    e.images = (accumulateAgency sm p.2).images ∧
    e.items = (accumulateAgency sm p.2).items ∧
    e.units = (accumulateAgency sm p.2).units ∧
    e.years = bucketSorted (accumulateAgency sm p.2).years := by
  unfold agencyEntryOf at h
  split at h
  · have h' := Except.ok.inj h
    subst h'
    exact ⟨rfl, rfl, rfl, rfl, rfl, rfl, rfl⟩
  · simp at h

/-- C8: every agency entry of a produced report displays, for each
aggregate counter (consignments, iiif_manifests, images, items, units
and every year bucket), the agency's own direct count plus the sum of
the corresponding counts of every series cross-linked to it, all
computed in the single final pass over the finished accumulator; in
particular the displayed item count is at least the direct item
count. -/
theorem agency_aggregates (objs : List Obj) (s : Stats) (rep : Report)
    (h1 : processStream objs initStats = .ok s)
    (h2 : print_stats_json s = .ok rep) :
    ∀ e ∈ rep.agencies, ∃ ast, getA s.agencies e.id = some ast ∧
      e.consignments = ast.consignments +
        sumLinked s.series ast.series (fun st => st.consignments) ∧
      e.iiif_manifests = ast.iiif_manifests +
        sumLinked s.series ast.series (fun st => st.iiif_manifests) ∧
      e.images = ast.images +
        sumLinked s.series ast.series (fun st => st.images) ∧
      e.items = ast.items +
        sumLinked s.series ast.series (fun st => st.items) ∧
      e.units = ast.units +
        sumLinked s.series ast.series (fun st => st.units) ∧
      (∀ y, pairSum e.years y = ast.years.count y +
        sumLinked s.series ast.series (fun st => st.years.count y)) ∧
      ast.items ≤ e.items := by
  intro e he
  have hnd : (s.agencies.map Prod.fst).Nodup :=
    processStream_agencies_nodup objs initStats s h1 (by simp [initStats])
  unfold print_stats_json at h2
  split at h2
  · next ags hags =>
    have h' := Except.ok.inj h2
    subst h'
    have he' : e ∈ ags := he
    obtain ⟨p, hpmem, hpok⟩ := agencyEntries_mem s.series _ ags hags e he'
    have hpmem' : p ∈ s.agencies :=
      ((List.perm_insertionSort _ _).mem_iff).1 hpmem
    obtain ⟨hid, hc, hi, him, hit, hu, hy⟩ :=
      agencyEntryOf_ok s.series p e hpok
    refine ⟨p.2, ?_, ?_, ?_, ?_, ?_, ?_, ?_, ?_⟩
    · rw [hid]
      exact getA_eq_of_mem_nodup s.agencies p.1 p.2 hpmem' hnd
    · rw [hc, accumulateAgency_eq]
    · rw [hi, accumulateAgency_eq]
    · rw [him, accumulateAgency_eq]
    · rw [hit, accumulateAgency_eq]
    · rw [hu, accumulateAgency_eq]
    · intro y
      rw [hy, accumulateAgency_eq]
      show pairSum (bucketSorted (p.2.years ++ yearsLinked s.series
        p.2.series)) y = _
      rw [pairSum_bucketSorted, List.count_append, count_yearsLinked]
    · rw [hit, accumulateAgency_eq]
      exact Nat.le_add_right _ _
  · simp at h2

/-- A concrete Agency record. -/
def agencyOnlyObj : Obj :=
  { category := some "Agency", identifier := some "VA 1",
    title := some "T" }

/-- The accumulator after the single Agency record. -/
def agencyOnlyStats : Stats :=
  match processStream [agencyOnlyObj] initStats with
  | .ok s => s
  | .error _ => initStats

/-- The report printed from it. -/
def agencyOnlyReport : Report :=
  match print_stats_json agencyOnlyStats with
  | .ok r => r
  | .error _ =>
    { overall := ({ categories := [], iiif_manifests := 0, objects := 0, units := 0, years := [] } : Overall),
      agencies := [], series := [] }

/-- Its single agency entry. -/
def entry0 : AgencyEntry :=
  (agencyOnlyReport.agencies).headD
    { id := "", title := "", consignments := 0, iiif_manifests := 0,
      images := 0, items := 0, series := [], units := 0, years := [] }

/-- The accumulator's direct entry for the same agency. -/
def ast0 : AgencyStats :=
  (getA agencyOnlyStats.agencies "VA1").getD defaultAgencyStats

/-- C8 witness: `agency_aggregates` on the concrete one-Agency stream,
instantiated at its single report entry. -/
theorem agency_aggregates_witness :
    entry0.items = ast0.items +
      sumLinked agencyOnlyStats.series ast0.series (fun st => st.items) ∧
    entry0.units = ast0.units +
      sumLinked agencyOnlyStats.series ast0.series (fun st => st.units) ∧
    ast0.items ≤ entry0.items := by
  obtain ⟨ast, hga, _, _, _, hit, hu, _, hle⟩ :=
    agency_aggregates [agencyOnlyObj] agencyOnlyStats agencyOnlyReport
      rfl rfl entry0 (by decide)
  have hsome : some ast = some ast0 := by rw [← hga]; rfl
  have hast : ast = ast0 := Option.some.inj hsome
  rw [hast] at hit hu hle
  exact ⟨hit, hu, hle⟩

end ProvStats

